import Mathlib

/-!
Verification of the batch-orchestration layer of `seedseg` (`run.py`).

The per-image processing functions (`process_seed_image`,
`process_colorimetric_image`, from `seeds.py`) are pure per-image
computations; the batch layer only forwards arguments to them and
bookkeeps their outcomes, so we model them as oracle parameters
(`proc : SeedArgs → ProcessOutcome`, `procColor : ColorArgs → ProcessOutcome × ProcessOutcome`).
Each run of a batch generator is embedded as the list of events it
produces: the strings it yields, the per-image calls it makes (with the
full argument record), and the final yielded list of results.
-/

namespace SeedSeg

/-- Modelled from the spec: `config.DEFAULT_BRIGHTFIELD_SUFFIX` (config.py is
not in the sources). The CLI help text uses `BF,FL` as the example suffix
pair, so we take `BF`. No claim depends on the concrete value. -/
def DEFAULT_BRIGHTFIELD_SUFFIX : String := "BF"

/-- Modelled from the spec: `config.DEFAULT_FLUORESCENT_SUFFIX` (config.py is
not in the sources); the CLI example pair is `BF,FL`. -/
def DEFAULT_FLUORESCENT_SUFFIX : String := "FL"

/-- A file descriptor of the fluorescence-mode mapping: the dicts built by
`collect_img_files` with keys `file_path`, `file_name`, `img_type`. -/
structure FileObj where
  file_path : String
  file_name : String
  img_type : String
deriving DecidableEq, Repr

/-- The outcome record returned by `process_seed_image` (spec §3
`ProcessOutcome`): seed count, brightness threshold used, radial threshold
used (possibly null when no regions were found). -/
structure ProcessOutcome where
  num_seeds : Nat
  brightness_threshold : Int
  radial_threshold : Option ℚ
deriving DecidableEq, Repr

/-- The argument record of one `process_seed_image` call as made by
`process_fluorescent_batch` (run.py lines 93-104 and 111-122). The image
is identified by the path it was read from. -/
structure SeedArgs where
  image : String
  img_type : String
  sample_name : String
  initial_brightness_thresh : Option Int
  radial_threshold : Option ℚ
  radial_threshold_ratio : Option ℚ
  large_area_factor : Option ℚ
  output_dir : Option String
  plot : Bool
deriving DecidableEq, Repr

/-- The argument record of one `process_colorimetric_image` call as made by
`process_colorimetric_batch` (run.py lines 182-193). -/
structure ColorArgs where
  image_path : String
  sample_name : String
  bf_thresh : Option Int
  radial_threshold : Option ℚ
  radial_threshold_ratio : Option ℚ
  output_dir : Option String
  large_area_factor : Option ℚ
  plot : Bool
deriving DecidableEq, Repr

/-- Modelled from the spec: `utils.Result` (utils.py is not in the sources).
Spec §3 `SampleResult`: per-sample totals built by the batch orchestrator;
run.py constructs it as `Result(sample_name)` and then assigns the fields
below, so unassigned fields start as Python `None`. -/
structure Result where
  sample_name : String
  total_seeds : Option Nat := none
  marker_seeds : Option Nat := none
  bf_thresh : Option Int := none
  marker_thresh : Option Int := none
  radial_threshold : Option ℚ := none
  radial_threshold_ratio : Option ℚ := none
deriving DecidableEq, Repr

/-- Python truthiness test `not x` for an optional count: `None` and `0` are
falsy (run.py lines 129 and 131 test `not result.total_seeds`). -/
def pyFalsy : Option Nat → Bool
  | none => true
  | some n => n == 0

/-- Python `x or d` for an optional string default (run.py lines 76-77):
`None` and the empty string both fall back to the default. -/
def pyOrStr : Option String → String → String
  | none, d => d
  | some s, d => if s = "" then d else s

/-- One event of a batch-generator run: a yielded status string, a call to a
per-image processor, or the final yielded list of results. -/
inductive BatchEv where
  | out (s : String)
  | callSeed (a : SeedArgs)
  | callColor (a : ColorArgs)
  | outResults (rs : List Result)
deriving DecidableEq, Repr

/-- The keyword arguments of `process_fluorescent_batch` after the mapping
itself (run.py lines 29-40). -/
structure FluorParams where
  bf_thresh : Option Int
  fl_thresh : Option Int
  radial_thresh : Option ℚ
  batch_output_dir : Option String
  bf_suffix : Option String := none
  fl_suffix : Option String := none
  radial_threshold_ratio : Option ℚ := none
  large_area_factor : Option ℚ := none
  plot : Bool := true
deriving DecidableEq, Repr

/-- The keyword arguments of `process_colorimetric_batch` after the mapping
itself (run.py lines 139-147). -/
structure ColorParams where
  bf_thresh : Option Int
  radial_thresh : Option ℚ
  batch_output_dir : Option String
  radial_threshold_ratio : Option ℚ := none
  large_area_factor : Option ℚ := none
  plot : Bool := true
deriving DecidableEq, Repr

/-- The `sample_to_files` mapping: a Python dict from sample name to a list
of file descriptors, embedded as an association list with distinct keys. -/
def SampleMap := List (String × List FileObj)

/-- `sorted(sample_to_files.keys())` (run.py lines 80 and 178): Python dicts
are embedded as association lists with distinct keys. -/
def sortedKeys {β : Type} (m : List (String × β)) : List String :=
  List.insertionSort (· ≤ ·) (m.map Prod.fst)

/-- Dict indexing `sample_to_files[sample_name]`; on the association lists we
use, the key is always present. -/
def filesOf {β : Type} (m : List (String × List β)) (s : String) : List β :=
  (List.lookup s m).getD []

/-- The argument record of the brightfield branch call (run.py lines 93-104):
note the call passes `DEFAULT_BRIGHTFIELD_SUFFIX` as `img_type`, not the
caller-chosen suffix. -/
def bfArgs (p : FluorParams) (sample_name : String) (f : FileObj) : SeedArgs :=
  { image := f.file_path
    img_type := DEFAULT_BRIGHTFIELD_SUFFIX
    sample_name := sample_name
    initial_brightness_thresh := p.bf_thresh
    radial_threshold := p.radial_thresh
    radial_threshold_ratio := p.radial_threshold_ratio
    large_area_factor := p.large_area_factor
    output_dir := p.batch_output_dir
    plot := p.plot }

/-- The argument record of the fluorescent branch call (run.py lines 111-122). -/
def flArgs (p : FluorParams) (sample_name : String) (f : FileObj) : SeedArgs :=
  { image := f.file_path
    img_type := DEFAULT_FLUORESCENT_SUFFIX
    sample_name := sample_name
    initial_brightness_thresh := p.fl_thresh
    radial_threshold := p.radial_thresh
    radial_threshold_ratio := p.radial_threshold_ratio
    large_area_factor := p.large_area_factor
    output_dir := p.batch_output_dir
    plot := p.plot }

/-- Processing of one file descriptor inside the per-sample loop (run.py
lines 84-127): dispatch on `img_type`, call `process_seed_image` and update
the result in the two recognized branches, warn otherwise. Returns the
events emitted and the updated result. -/
def fluorFileStep (proc : SeedArgs → ProcessOutcome) (p : FluorParams)
    (bfS flS : String) (sample_name : String) (r : Result) (f : FileObj) :
    List BatchEv × Result :=
  if f.img_type = bfS then
    let a := bfArgs p sample_name f
    let o := proc a
    ([.out ("\t" ++ bfS ++ " (brightfield) image: " ++ f.file_name), .callSeed a],
     { r with total_seeds := some o.num_seeds
              bf_thresh := some o.brightness_threshold
              radial_threshold := o.radial_threshold })
  else if f.img_type = flS then
    let a := flArgs p sample_name f
    let o := proc a
    ([.out ("\t" ++ flS ++ " (fluorescent) image: " ++ f.file_name), .callSeed a],
     { r with marker_seeds := some o.num_seeds
              marker_thresh := some o.brightness_threshold
              radial_threshold := o.radial_threshold })
  else
    ([.out ("\tUnknown image type for " ++ f.file_name)], r)

/-- The fold of `fluorFileStep` over a sample's file descriptors, in order. -/
def fluorFiles (proc : SeedArgs → ProcessOutcome) (p : FluorParams)
    (bfS flS : String) (sample_name : String) (r : Result) :
    List FileObj → List BatchEv × Result
  | [] => ([], r)
  | f :: fs =>
    let step := fluorFileStep proc p bfS flS sample_name r f
    let rest := fluorFiles proc p bfS flS sample_name step.2 fs
    (step.1 ++ rest.1, rest.2)

/-- The warning yielded when `not result.total_seeds` (run.py line 130). -/
def bfMissingMsg (bfS sample_name : String) : String :=
  "\tCouldn\x27t find " ++ bfS ++ " (brightfield) image for " ++ sample_name ++
    ". Remember that image should be named <prefix_id>_" ++ bfS ++
    ".<img_extension>. Example: img1_" ++ bfS ++ ".tif"

/-- The warning yielded when `not result.marker_seeds` (run.py line 132). -/
def flMissingMsg (flS sample_name : String) : String :=
  "\tCouldn\x27t find " ++ flS ++ " (fluorescent) image for " ++ sample_name ++
    ". Remember that image should be named <prefix_id>_" ++ flS ++
    ".<img_extension>. Example: img1_" ++ flS ++ ".tif"

/-- One iteration of the sample loop body after the header (run.py lines
82-132): build `Result(sample_name)` with the ratio recorded, process each
file, then emit the two truthiness-based warnings. Returns the events and
the result that the loop appends to `results`. -/
def fluorSampleRun (proc : SeedArgs → ProcessOutcome) (p : FluorParams)
    (bfS flS : String) (sample_name : String) (files : List FileObj) :
    List BatchEv × Result :=
  let r0 : Result :=
    { sample_name := sample_name, radial_threshold_ratio := p.radial_threshold_ratio }
  let body := fluorFiles proc p bfS flS sample_name r0 files
  let w1 : List BatchEv :=
    if pyFalsy body.2.total_seeds then [.out (bfMissingMsg bfS sample_name)] else []
  let w2 : List BatchEv :=
    if pyFalsy body.2.marker_seeds then [.out (flMissingMsg flS sample_name)] else []
  (body.1 ++ w1 ++ w2, body.2)

/-- The header yielded at the top of each sample iteration (run.py line 81). -/
def sampleHeader (sample_name : String) (i n : Nat) : String :=
  "Processing sample " ++ sample_name ++ " (" ++ toString (i + 1) ++ " of " ++
    toString n ++ "):"

/-- `process_fluorescent_batch` (run.py lines 29-136) as the list of events of
one run: for each sample name in sorted order, yield the header, run the
sample body, and finally yield the accumulated list of results. -/
def process_fluorescent_batch (proc : SeedArgs → ProcessOutcome)
    (m : List (String × List FileObj)) (p : FluorParams) : List BatchEv :=
  let bfS := pyOrStr p.bf_suffix DEFAULT_BRIGHTFIELD_SUFFIX
  let flS := pyOrStr p.fl_suffix DEFAULT_FLUORESCENT_SUFFIX
  let keys := sortedKeys m
  (keys.enum.flatMap fun is =>
    .out (sampleHeader is.2 is.1 m.length) ::
      (fluorSampleRun proc p bfS flS is.2 (filesOf m is.2)).1) ++
    [.outResults (keys.map fun s => (fluorSampleRun proc p bfS flS s (filesOf m s)).2)]

/-- A file descriptor of the colorimetric-mode mapping: the dicts built by
`collect_single_img_files`, which carry only `file_path` and `file_name`. -/
structure SingleFileObj where
  file_path : String
  file_name : String
deriving DecidableEq, Repr

/-- The argument record of the `process_colorimetric_image` call (run.py
lines 182-193). -/
def colorArgs (p : ColorParams) (sample_name : String) (file_path : String) :
    ColorArgs :=
  { image_path := file_path
    sample_name := sample_name
    bf_thresh := p.bf_thresh
    radial_threshold := p.radial_thresh
    radial_threshold_ratio := p.radial_threshold_ratio
    output_dir := p.batch_output_dir
    large_area_factor := p.large_area_factor
    plot := p.plot }

/-- Diagnostic yielded when `not result.total_seeds` (run.py line 204). -/
def noSeedsMsg (sample_name : String) : String :=
  "\tDid not find any seeds for " ++ sample_name ++ "."

/-- Diagnostic yielded when `not result.marker_seeds` (run.py line 207). -/
def noMarkerSeedsMsg (sample_name : String) : String :=
  "\tDid not find any marker seeds for " ++ sample_name ++
    ". Make sure that the marker seeds are RED and that the non-marker seeds are YELLOW-ish. Other colors are not supported yet."

/-- Status yielded when both counts are truthy (run.py line 210). -/
def successMsg (sample_name : String) : String :=
  "\tSuccessfully processed " ++ sample_name

/-- Status yielded otherwise (run.py line 212). -/
def adjustMsg (sample_name : String) : String :=
  "\tAdjust parameters to improve results for " ++ sample_name ++
    ". See instructions for guidelines on how to ideally set them."

/-- The sample body after the assertion has passed (run.py lines 181-214):
call `process_colorimetric_image` on the first descriptor's path, build the
result from the pair of outcomes, then yield the per-sample diagnostics and
the `Results for ...` line. `resultStr` stands for `str(result)` from the
`utils.Result` class, which is not in the sources. -/
def colorSampleRun (procColor : ColorArgs → ProcessOutcome × ProcessOutcome)
    (resultStr : Result → String) (p : ColorParams) (sample_name : String)
    (f : SingleFileObj) : List BatchEv × Result :=
  let a := colorArgs p sample_name f.file_path
  let os := procColor a
  let r : Result :=
    { sample_name := sample_name
      total_seeds := some os.1.num_seeds
      bf_thresh := some os.1.brightness_threshold
      marker_seeds := some os.2.num_seeds
      marker_thresh := some os.2.brightness_threshold
      radial_threshold := os.1.radial_threshold
      radial_threshold_ratio := p.radial_threshold_ratio }
  let d1 : List BatchEv :=
    if pyFalsy r.total_seeds then [.out (noSeedsMsg sample_name)] else []
  let d2 : List BatchEv :=
    if pyFalsy r.marker_seeds then [.out (noMarkerSeedsMsg sample_name)] else []
  let d3 : BatchEv :=
    if !pyFalsy r.marker_seeds && !pyFalsy r.total_seeds then
      .out (successMsg sample_name)
    else
      .out (adjustMsg sample_name)
  (.callColor a :: d1 ++ d2 ++ [d3, .out ("\tResults for " ++ sample_name ++ ": " ++ resultStr r)],
   r)

/-- The loop of `process_colorimetric_batch` over the sorted sample names
(run.py lines 178-214). Yields the header, then asserts that the sample has
at least one file: on an empty descriptor list the `assert` raises
`AssertionError`, modelled by returning `none` in place of the results and
truncating the event list at that point. -/
def colorLoop (procColor : ColorArgs → ProcessOutcome × ProcessOutcome)
    (resultStr : Result → String) (p : ColorParams)
    (m : List (String × List SingleFileObj)) (n : Nat) :
    Nat → List String → List BatchEv × Option (List Result)
  | _, [] => ([], some [])
  | i, s :: ss =>
    let hdr := BatchEv.out (sampleHeader s i n)
    match filesOf m s with
    | [] => ([hdr], none)
    | f :: _ =>
      let blk := colorSampleRun procColor resultStr p s f
      let rest := colorLoop procColor resultStr p m n (i + 1) ss
      (hdr :: blk.1 ++ rest.1, rest.2.map (blk.2 :: ·))

/-- `process_colorimetric_batch` (run.py lines 139-216) as the events of one
run paired with a flag telling whether the run raised (`true` exactly when
some sample's `assert len(sample_to_file[sample_name])` failed; in that case
the final results list is never yielded). -/
def process_colorimetric_batch (procColor : ColorArgs → ProcessOutcome × ProcessOutcome)
    (resultStr : Result → String) (m : List (String × List SingleFileObj))
    (p : ColorParams) : List BatchEv × Bool :=
  match colorLoop procColor resultStr p m m.length 0 (sortedKeys m) with
  | (evs, some rs) => (evs ++ [.outResults rs], false)
  | (evs, none) => (evs, true)

/-- Modelled from the spec: `utils.VALID_EXTENSIONS` (utils.py is not in the
sources) — the set of recognized image filename extensions, compared in
lowercase. The spec's examples use `.tif`; the concrete contents do not
matter to the claims, which quantify over files with a valid extension. -/
def VALID_EXTENSIONS : List String :=
  [".jpg", ".jpeg", ".png", ".tif", ".tiff", ".bmp"]

/-- Lowercasing of a filename extension (Python str.lower), mapped over the
characters; Char.toLower lowers the ASCII range, which covers the
extensions compared against VALID_EXTENSIONS. -/
def extLower (s : String) : String :=
  ⟨s.data.map Char.toLower⟩

/-- `os.path.splitext` restricted to plain file names (no directory
separators, as produced by `os.listdir`): split at the last dot, unless every
character before that dot is itself a dot (so `.bashrc` has no extension). -/
def splitext (f : String) : String × String :=
  let cs := f.data
  match ((cs.enum.filter fun ic => ic.2 == '.').map Prod.fst).getLast? with
  | none => (f, "")
  | some i =>
    if (cs.take i).all (· == '.') then (f, "")
    else (⟨cs.take i⟩, ⟨cs.drop i⟩)

/-- Assignment `d[k] = v` on a Python dict embedded as an association list:
replace the value at an existing key in place, otherwise append the new
binding at the end (insertion order). -/
def dictInsert {β : Type} : List (String × β) → String → β → List (String × β)
  | [], k, v => [(k, v)]
  | (k', v') :: rest, k, v =>
    if k' = k then (k', v) :: rest else (k', v') :: dictInsert rest k v

/-- `collect_single_img_files` (run.py lines 272-298). `listing` stands for
the plain files of `input_dir` in `os.listdir` order; `os.path.join` is
embedded as concatenation with `/`. Keeps the files with a recognized
extension, and records each under its filename stem, one singleton
descriptor list per sample name. -/
def collect_single_img_files (input_dir : String) (listing : List String) :
    List (String × List SingleFileObj) × List String :=
  let file_names :=
    listing.filter fun f => VALID_EXTENSIONS.contains (extLower (splitext f).2)
  (file_names.foldl
      (fun acc f =>
        dictInsert acc (splitext f).1 [⟨input_dir ++ "/" ++ f, f⟩])
      [],
   file_names)

/-- The value of `args.radial_threshold_ratio` in `__main__`: the argparse
declaration (run.py lines 358-363) defaults it to `0.4` when the flag is not
supplied on the command line. -/
def main_radial_threshold_ratio (cli : Option ℚ) : ℚ :=
  cli.getD 0.4

/-- The `FluorParams` record with which `__main__` invokes
`process_fluorescent_batch` (run.py lines 409-420): every optional parameter
is forwarded from the parsed arguments, and `radial_threshold_ratio` is the
argparse value, hence `0.4` when the flag was absent. -/
def mainFluorParams (bf_thresh fl_thresh : Option Int) (radial_thresh : Option ℚ)
    (img_output_dir : Option String) (bfS flS : String) (cli_ratio : Option ℚ)
    (large_area_factor : Option ℚ) (plot : Bool) : FluorParams :=
  { bf_thresh := bf_thresh
    fl_thresh := fl_thresh
    radial_thresh := radial_thresh
    batch_output_dir := img_output_dir
    bf_suffix := some bfS
    fl_suffix := some flS
    radial_threshold_ratio := some (main_radial_threshold_ratio cli_ratio)
    large_area_factor := large_area_factor
    plot := plot }

/-- The `ColorParams` record with which `__main__` invokes
`process_colorimetric_batch` (run.py lines 422-430). -/
def mainColorParams (bf_thresh : Option Int) (radial_thresh : Option ℚ)
    (img_output_dir : Option String) (cli_ratio : Option ℚ)
    (large_area_factor : Option ℚ) (plot : Bool) : ColorParams :=
  { bf_thresh := bf_thresh
    radial_thresh := radial_thresh
    batch_output_dir := img_output_dir
    radial_threshold_ratio := some (main_radial_threshold_ratio cli_ratio)
    large_area_factor := large_area_factor
    plot := plot }

/-! ### Views of a run's event list -/

/-- The status strings yielded during a run. -/
def msgsOf (t : List BatchEv) : List String :=
  t.filterMap fun e =>
    match e with
    | .out s => some s
    | _ => none

/-- The `process_seed_image` calls made during a run, in order. -/
def seedCallsOf (t : List BatchEv) : List SeedArgs :=
  t.filterMap fun e =>
    match e with
    | .callSeed a => some a
    | _ => none

/-- The `process_colorimetric_image` calls made during a run, in order. -/
def colorCallsOf (t : List BatchEv) : List ColorArgs :=
  t.filterMap fun e =>
    match e with
    | .callColor a => some a
    | _ => none

/-- The items actually yielded by the generator, in order: status strings on
the left, result lists on the right (processor calls are not yields). -/
def yieldsOf (t : List BatchEv) : List (String ⊕ List Result) :=
  t.filterMap fun e =>
    match e with
    | .out s => some (Sum.inl s)
    | .outResults rs => some (Sum.inr rs)
    | _ => none

/-! ### Descriptor classification, as in the per-file dispatch -/

/-- The first branch test of the dispatch (run.py line 90). -/
def isBf (bfS : String) (f : FileObj) : Bool :=
  f.img_type == bfS

/-- The second branch test (run.py line 108), reached only when the first
failed. -/
def isFl (bfS flS : String) (f : FileObj) : Bool :=
  f.img_type != bfS && f.img_type == flS

/-- A descriptor taken by one of the two recognized branches. -/
def isKnown (bfS flS : String) (f : FileObj) : Bool :=
  isBf bfS f || isFl bfS flS f

/-- The argument record of the call a recognized descriptor triggers. -/
def seedArgsOf (p : FluorParams) (bfS : String) (sample_name : String)
    (f : FileObj) : SeedArgs :=
  if isBf bfS f then bfArgs p sample_name f else flArgs p sample_name f

/-- The call a descriptor triggers, if any. -/
def fileCall (p : FluorParams) (bfS flS : String) (sample_name : String)
    (f : FileObj) : Option SeedArgs :=
  if isBf bfS f then some (bfArgs p sample_name f)
  else if isFl bfS flS f then some (flArgs p sample_name f)
  else none

/-- The last element of a list satisfying a predicate, if any. -/
def lastMatch {α : Type} (pred : α → Bool) : List α → Option α
  | [] => none
  | f :: fs =>
    match lastMatch pred fs with
    | some g => some g
    | none => if pred f then some f else none

/-- The two suffixes actually used by a fluorescent-batch run (run.py lines
76-77). -/
def fluorSuffixes (p : FluorParams) : String × String :=
  (pyOrStr p.bf_suffix DEFAULT_BRIGHTFIELD_SUFFIX,
   pyOrStr p.fl_suffix DEFAULT_FLUORESCENT_SUFFIX)

/-- The final `results` list of a fluorescent-batch run: one result per
sample name, in sorted order. -/
def fluorResults (proc : SeedArgs → ProcessOutcome)
    (m : List (String × List FileObj)) (p : FluorParams) : List Result :=
  (sortedKeys m).map fun s =>
    (fluorSampleRun proc p (fluorSuffixes p).1 (fluorSuffixes p).2 s (filesOf m s)).2

/-- The result a colorimetric-batch run builds for one sample name (the
dummy branch is unreachable: the `assert` aborts the run before a result is
built for a sample with no files). -/
def colorResultOf (procColor : ColorArgs → ProcessOutcome × ProcessOutcome)
    (resultStr : Result → String) (p : ColorParams)
    (m : List (String × List SingleFileObj)) (s : String) : Result :=
  match filesOf m s with
  | [] => { sample_name := s }
  | f :: _ => (colorSampleRun procColor resultStr p s f).2

/-- The final `results` list of a colorimetric-batch run that raised no
assertion. -/
def colorResults (procColor : ColorArgs → ProcessOutcome × ProcessOutcome)
    (resultStr : Result → String) (m : List (String × List SingleFileObj))
    (p : ColorParams) : List Result :=
  (sortedKeys m).map (colorResultOf procColor resultStr p m)

/-- The events of a fluorescent-batch run before the final results yield:
the concatenation of the per-sample blocks, each a header followed by the
sample body. -/
def fluorBlocks (proc : SeedArgs → ProcessOutcome)
    (m : List (String × List FileObj)) (p : FluorParams) : List BatchEv :=
  (sortedKeys m).enum.flatMap fun is =>
    .out (sampleHeader is.2 is.1 m.length) ::
      (fluorSampleRun proc p (fluorSuffixes p).1 (fluorSuffixes p).2 is.2
        (filesOf m is.2)).1

/-! ### Concrete fixtures used to witness the theorems below -/

/-- A per-image processor for witnesses: zero seeds on brightfield images,
four on fluorescent ones. -/
def procW : SeedArgs → ProcessOutcome := fun a =>
  if a.img_type = DEFAULT_BRIGHTFIELD_SUFFIX then ⟨0, 30, some 2⟩
  else ⟨4, 40, some 5⟩

/-- A colorimetric processor for witnesses: zero total seeds, one marker. -/
def procColorW : ColorArgs → ProcessOutcome × ProcessOutcome :=
  fun _ => (⟨0, 30, some 2⟩, ⟨1, 35, some 2⟩)

/-- A stand-in for str(result) in witnesses. -/
def resultStrW : Result → String := fun r => r.sample_name

/-- Witness brightfield descriptor. -/
def fileBF : FileObj := ⟨"d/s1_BF.tif", "s1_BF.tif", "BF"⟩

/-- Witness fluorescent descriptor. -/
def fileFL : FileObj := ⟨"d/s1_FL.tif", "s1_FL.tif", "FL"⟩

/-- Witness descriptor of unrecognized type. -/
def fileXX : FileObj := ⟨"d/s1_XX.tif", "s1_XX.tif", "XX"⟩

/-- Witness fluorescence-mode mapping: one sample with three descriptors. -/
def mapW : List (String × List FileObj) := [("s1", [fileBF, fileFL, fileXX])]

/-- Witness fluorescence-mode parameters. -/
def paramsW : FluorParams :=
  { bf_thresh := some 10, fl_thresh := none, radial_thresh := some 3,
    batch_output_dir := none }

/-- Witness colorimetric descriptor. -/
def fileC : SingleFileObj := ⟨"d/c1.tif", "c1.tif"⟩

/-- Witness colorimetric mapping. -/
def mapColorW : List (String × List SingleFileObj) := [("c1", [fileC])]

/-- Witness colorimetric parameters. -/
def paramsColorW : ColorParams :=
  { bf_thresh := none, radial_thresh := some 3, batch_output_dir := none }

/-! ### Lemmas about the per-sample file fold -/

lemma isBf_of {bfS : String} {f : FileObj} (h : f.img_type = bfS) :
    isBf bfS f = true := by
  simp [isBf, h]

lemma isBf_not {bfS : String} {f : FileObj} (h : ¬ f.img_type = bfS) :
    isBf bfS f = false := by
  simp [isBf, h]

lemma isFl_of {bfS flS : String} {f : FileObj} (h1 : ¬ f.img_type = bfS)
    (h2 : f.img_type = flS) : isFl bfS flS f = true := by
  subst h2
  simp [isFl, h1]

lemma isFl_of_bf {bfS flS : String} {f : FileObj} (h : f.img_type = bfS) :
    isFl bfS flS f = false := by
  simp [isFl, h]

lemma isFl_of_unknown {bfS flS : String} {f : FileObj} (h2 : ¬ f.img_type = flS) :
    isFl bfS flS f = false := by
  simp [isFl, h2]

lemma isKnown_of_bf {bfS flS : String} {f : FileObj} (h : f.img_type = bfS) :
    isKnown bfS flS f = true := by
  simp [isKnown, isBf_of h]

lemma isKnown_of_fl {bfS flS : String} {f : FileObj} (h1 : ¬ f.img_type = bfS)
    (h2 : f.img_type = flS) : isKnown bfS flS f = true := by
  simp [isKnown, isFl_of h1 h2]

lemma isKnown_of_unknown {bfS flS : String} {f : FileObj}
    (h1 : ¬ f.img_type = bfS) (h2 : ¬ f.img_type = flS) :
    isKnown bfS flS f = false := by
  simp [isKnown, isBf_not h1, isFl_of_unknown h2]

lemma seedArgsOf_bf {p : FluorParams} {bfS s : String} {f : FileObj}
    (h : f.img_type = bfS) : seedArgsOf p bfS s f = bfArgs p s f := by
  simp [seedArgsOf, isBf_of h]

lemma seedArgsOf_fl {p : FluorParams} {bfS s : String} {f : FileObj}
    (h : ¬ f.img_type = bfS) : seedArgsOf p bfS s f = flArgs p s f := by
  simp [seedArgsOf, isBf_not h]

lemma fileCall_bf {p : FluorParams} {bfS flS s : String} {f : FileObj}
    (h : f.img_type = bfS) : fileCall p bfS flS s f = some (bfArgs p s f) := by
  simp [fileCall, isBf_of h]

lemma fileCall_fl {p : FluorParams} {bfS flS s : String} {f : FileObj}
    (h1 : ¬ f.img_type = bfS) (h2 : f.img_type = flS) :
    fileCall p bfS flS s f = some (flArgs p s f) := by
  simp [fileCall, isBf_not h1, isFl_of h1 h2]

lemma fileCall_none {p : FluorParams} {bfS flS s : String} {f : FileObj}
    (h1 : ¬ f.img_type = bfS) (h2 : ¬ f.img_type = flS) :
    fileCall p bfS flS s f = none := by
  simp [fileCall, isBf_not h1, isFl_of_unknown h2]

lemma lastMatch_cons_of_true {α : Type} {pred : α → Bool} {f : α} {fs : List α}
    (h : pred f = true) :
    lastMatch pred (f :: fs) =
      (match lastMatch pred fs with
       | some g => some g
       | none => some f) := by
  simp [lastMatch, h]

lemma lastMatch_cons_of_false {α : Type} {pred : α → Bool} {f : α} {fs : List α}
    (h : pred f = false) :
    lastMatch pred (f :: fs) = lastMatch pred fs := by
  cases hl : lastMatch pred fs <;> simp [lastMatch, hl, h]

lemma fluorFileStep_bf (proc : SeedArgs → ProcessOutcome) (p : FluorParams)
    {bfS : String} (flS s : String) (r : Result) {f : FileObj}
    (h : f.img_type = bfS) :
    fluorFileStep proc p bfS flS s r f =
      ([.out ("\t" ++ bfS ++ " (brightfield) image: " ++ f.file_name),
        .callSeed (bfArgs p s f)],
       { r with total_seeds := some (proc (bfArgs p s f)).num_seeds
                bf_thresh := some (proc (bfArgs p s f)).brightness_threshold
                radial_threshold := (proc (bfArgs p s f)).radial_threshold }) := by
  simp only [fluorFileStep]
  rw [if_pos h]

lemma fluorFileStep_fl (proc : SeedArgs → ProcessOutcome) (p : FluorParams)
    {bfS flS : String} (s : String) (r : Result) {f : FileObj}
    (h1 : ¬ f.img_type = bfS) (h2 : f.img_type = flS) :
    fluorFileStep proc p bfS flS s r f =
      ([.out ("\t" ++ flS ++ " (fluorescent) image: " ++ f.file_name),
        .callSeed (flArgs p s f)],
       { r with marker_seeds := some (proc (flArgs p s f)).num_seeds
                marker_thresh := some (proc (flArgs p s f)).brightness_threshold
                radial_threshold := (proc (flArgs p s f)).radial_threshold }) := by
  simp only [fluorFileStep]
  rw [if_neg h1, if_pos h2]

lemma fluorFileStep_unknown (proc : SeedArgs → ProcessOutcome) (p : FluorParams)
    {bfS flS : String} (s : String) (r : Result) {f : FileObj}
    (h1 : ¬ f.img_type = bfS) (h2 : ¬ f.img_type = flS) :
    fluorFileStep proc p bfS flS s r f =
      ([.out ("\tUnknown image type for " ++ f.file_name)], r) := by
  simp only [fluorFileStep]
  rw [if_neg h1, if_neg h2]

lemma fluorFiles_cons (proc : SeedArgs → ProcessOutcome) (p : FluorParams)
    (bfS flS s : String) (r : Result) (f : FileObj) (fs : List FileObj) :
    fluorFiles proc p bfS flS s r (f :: fs) =
      ((fluorFileStep proc p bfS flS s r f).1 ++
        (fluorFiles proc p bfS flS s (fluorFileStep proc p bfS flS s r f).2 fs).1,
       (fluorFiles proc p bfS flS s (fluorFileStep proc p bfS flS s r f).2 fs).2) :=
  rfl

lemma fluorFiles_sample_name (proc : SeedArgs → ProcessOutcome) (p : FluorParams)
    (bfS flS s : String) (r : Result) (files : List FileObj) :
    (fluorFiles proc p bfS flS s r files).2.sample_name = r.sample_name := by
  induction files generalizing r with
  | nil => rfl
  | cons f fs ih =>
    rw [fluorFiles_cons, ih]
    by_cases h1 : f.img_type = bfS
    · rw [fluorFileStep_bf proc p flS s r h1]
    · by_cases h2 : f.img_type = flS
      · rw [fluorFileStep_fl proc p s r h1 h2]
      · rw [fluorFileStep_unknown proc p s r h1 h2]

lemma fluorFiles_ratio (proc : SeedArgs → ProcessOutcome) (p : FluorParams)
    (bfS flS s : String) (r : Result) (files : List FileObj) :
    (fluorFiles proc p bfS flS s r files).2.radial_threshold_ratio =
      r.radial_threshold_ratio := by
  induction files generalizing r with
  | nil => rfl
  | cons f fs ih =>
    rw [fluorFiles_cons, ih]
    by_cases h1 : f.img_type = bfS
    · rw [fluorFileStep_bf proc p flS s r h1]
    · by_cases h2 : f.img_type = flS
      · rw [fluorFileStep_fl proc p s r h1 h2]
      · rw [fluorFileStep_unknown proc p s r h1 h2]

lemma fluorFiles_total_seeds (proc : SeedArgs → ProcessOutcome) (p : FluorParams)
    (bfS flS s : String) (r : Result) (files : List FileObj) :
    (fluorFiles proc p bfS flS s r files).2.total_seeds =
      (match lastMatch (isBf bfS) files with
       | some f => some (proc (bfArgs p s f)).num_seeds
       | none => r.total_seeds) := by
  induction files generalizing r with
  | nil => rfl
  | cons f fs ih =>
    rw [fluorFiles_cons, ih]
    by_cases h1 : f.img_type = bfS
    · rw [lastMatch_cons_of_true (isBf_of h1), fluorFileStep_bf proc p flS s r h1]
      cases hl : lastMatch (isBf bfS) fs <;> simp [hl]
    · rw [lastMatch_cons_of_false (isBf_not h1)]
      by_cases h2 : f.img_type = flS
      · rw [fluorFileStep_fl proc p s r h1 h2]
      · rw [fluorFileStep_unknown proc p s r h1 h2]

lemma fluorFiles_bf_thresh (proc : SeedArgs → ProcessOutcome) (p : FluorParams)
    (bfS flS s : String) (r : Result) (files : List FileObj) :
    (fluorFiles proc p bfS flS s r files).2.bf_thresh =
      (match lastMatch (isBf bfS) files with
       | some f => some (proc (bfArgs p s f)).brightness_threshold
       | none => r.bf_thresh) := by
  induction files generalizing r with
  | nil => rfl
  | cons f fs ih =>
    rw [fluorFiles_cons, ih]
    by_cases h1 : f.img_type = bfS
    · rw [lastMatch_cons_of_true (isBf_of h1), fluorFileStep_bf proc p flS s r h1]
      cases hl : lastMatch (isBf bfS) fs <;> simp [hl]
    · rw [lastMatch_cons_of_false (isBf_not h1)]
      by_cases h2 : f.img_type = flS
      · rw [fluorFileStep_fl proc p s r h1 h2]
      · rw [fluorFileStep_unknown proc p s r h1 h2]

lemma fluorFiles_marker_seeds (proc : SeedArgs → ProcessOutcome) (p : FluorParams)
    (bfS flS s : String) (r : Result) (files : List FileObj) :
    (fluorFiles proc p bfS flS s r files).2.marker_seeds =
      (match lastMatch (isFl bfS flS) files with
       | some f => some (proc (flArgs p s f)).num_seeds
       | none => r.marker_seeds) := by
  induction files generalizing r with
  | nil => rfl
  | cons f fs ih =>
    rw [fluorFiles_cons, ih]
    by_cases h1 : f.img_type = bfS
    · rw [lastMatch_cons_of_false (isFl_of_bf h1), fluorFileStep_bf proc p flS s r h1]
    · by_cases h2 : f.img_type = flS
      · rw [lastMatch_cons_of_true (isFl_of h1 h2), fluorFileStep_fl proc p s r h1 h2]
        cases hl : lastMatch (isFl bfS flS) fs <;> simp [hl]
      · rw [lastMatch_cons_of_false (isFl_of_unknown h2),
          fluorFileStep_unknown proc p s r h1 h2]

lemma fluorFiles_marker_thresh (proc : SeedArgs → ProcessOutcome) (p : FluorParams)
    (bfS flS s : String) (r : Result) (files : List FileObj) :
    (fluorFiles proc p bfS flS s r files).2.marker_thresh =
      (match lastMatch (isFl bfS flS) files with
       | some f => some (proc (flArgs p s f)).brightness_threshold
       | none => r.marker_thresh) := by
  induction files generalizing r with
  | nil => rfl
  | cons f fs ih =>
    rw [fluorFiles_cons, ih]
    by_cases h1 : f.img_type = bfS
    · rw [lastMatch_cons_of_false (isFl_of_bf h1), fluorFileStep_bf proc p flS s r h1]
    · by_cases h2 : f.img_type = flS
      · rw [lastMatch_cons_of_true (isFl_of h1 h2), fluorFileStep_fl proc p s r h1 h2]
        cases hl : lastMatch (isFl bfS flS) fs <;> simp [hl]
      · rw [lastMatch_cons_of_false (isFl_of_unknown h2),
          fluorFileStep_unknown proc p s r h1 h2]

lemma fluorFiles_radial (proc : SeedArgs → ProcessOutcome) (p : FluorParams)
    (bfS flS s : String) (r : Result) (files : List FileObj) :
    (fluorFiles proc p bfS flS s r files).2.radial_threshold =
      (match lastMatch (isKnown bfS flS) files with
       | some f => (proc (seedArgsOf p bfS s f)).radial_threshold
       | none => r.radial_threshold) := by
  induction files generalizing r with
  | nil => rfl
  | cons f fs ih =>
    rw [fluorFiles_cons, ih]
    by_cases h1 : f.img_type = bfS
    · rw [lastMatch_cons_of_true (isKnown_of_bf h1), fluorFileStep_bf proc p flS s r h1]
      cases hl : lastMatch (isKnown bfS flS) fs <;> simp [hl, seedArgsOf_bf h1]
    · by_cases h2 : f.img_type = flS
      · rw [lastMatch_cons_of_true (isKnown_of_fl h1 h2),
          fluorFileStep_fl proc p s r h1 h2]
        cases hl : lastMatch (isKnown bfS flS) fs <;> simp [hl, seedArgsOf_fl h1]
      · rw [lastMatch_cons_of_false (isKnown_of_unknown h1 h2),
          fluorFileStep_unknown proc p s r h1 h2]

lemma seedCallsOf_append (t u : List BatchEv) :
    seedCallsOf (t ++ u) = seedCallsOf t ++ seedCallsOf u :=
  List.filterMap_append t u _

lemma fluorFiles_calls (proc : SeedArgs → ProcessOutcome) (p : FluorParams)
    (bfS flS s : String) (r : Result) (files : List FileObj) :
    seedCallsOf (fluorFiles proc p bfS flS s r files).1 =
      files.filterMap (fileCall p bfS flS s) := by
  induction files generalizing r with
  | nil => rfl
  | cons f fs ih =>
    rw [fluorFiles_cons]
    simp only [seedCallsOf_append, ih, List.filterMap_cons]
    by_cases h1 : f.img_type = bfS
    · rw [fluorFileStep_bf proc p flS s r h1, fileCall_bf h1]
      simp [seedCallsOf]
    · by_cases h2 : f.img_type = flS
      · rw [fluorFileStep_fl proc p s r h1 h2, fileCall_fl h1 h2]
        simp [seedCallsOf]
      · rw [fluorFileStep_unknown proc p s r h1 h2, fileCall_none h1 h2]
        simp [seedCallsOf]

lemma fluorFiles_no_outResults (proc : SeedArgs → ProcessOutcome) (p : FluorParams)
    (bfS flS s : String) (r : Result) (files : List FileObj) (rs : List Result) :
    BatchEv.outResults rs ∉ (fluorFiles proc p bfS flS s r files).1 := by
  induction files generalizing r with
  | nil => simp [fluorFiles]
  | cons f fs ih =>
    rw [fluorFiles_cons]
    by_cases h1 : f.img_type = bfS
    · rw [fluorFileStep_bf proc p flS s r h1]
      simp [ih]
    · by_cases h2 : f.img_type = flS
      · rw [fluorFileStep_fl proc p s r h1 h2]
        simp [ih]
      · rw [fluorFileStep_unknown proc p s r h1 h2]
        simp [ih]

/-! ### Lemmas about one sample iteration and the whole fluorescent batch -/

lemma fluorSampleRun_result (proc : SeedArgs → ProcessOutcome) (p : FluorParams)
    (bfS flS s : String) (files : List FileObj) :
    (fluorSampleRun proc p bfS flS s files).2 =
      (fluorFiles proc p bfS flS s
        { sample_name := s, radial_threshold_ratio := p.radial_threshold_ratio }
        files).2 :=
  rfl

lemma fluorSampleRun_name (proc : SeedArgs → ProcessOutcome) (p : FluorParams)
    (bfS flS s : String) (files : List FileObj) :
    (fluorSampleRun proc p bfS flS s files).2.sample_name = s := by
  rw [fluorSampleRun_result, fluorFiles_sample_name]

lemma fluorSampleRun_calls (proc : SeedArgs → ProcessOutcome) (p : FluorParams)
    (bfS flS s : String) (files : List FileObj) :
    seedCallsOf (fluorSampleRun proc p bfS flS s files).1 =
      files.filterMap (fileCall p bfS flS s) := by
  simp only [fluorSampleRun, seedCallsOf_append, fluorFiles_calls]
  have h1 : ∀ b : Bool, ∀ msg : String,
      seedCallsOf (if b then [BatchEv.out msg] else []) = [] := by
    intro b msg
    cases b <;> rfl
  rw [h1, h1]
  simp

lemma fluorSampleRun_no_outResults (proc : SeedArgs → ProcessOutcome)
    (p : FluorParams) (bfS flS s : String) (files : List FileObj)
    (rs : List Result) :
    BatchEv.outResults rs ∉ (fluorSampleRun proc p bfS flS s files).1 := by
  simp only [fluorSampleRun, List.mem_append]
  push_neg
  refine ⟨⟨fluorFiles_no_outResults proc p bfS flS s _ files rs, ?_⟩, ?_⟩
  · cases pyFalsy (fluorFiles proc p bfS flS s
      { sample_name := s, radial_threshold_ratio := p.radial_threshold_ratio }
      files).2.total_seeds <;> simp
  · cases pyFalsy (fluorFiles proc p bfS flS s
      { sample_name := s, radial_threshold_ratio := p.radial_threshold_ratio }
      files).2.marker_seeds <;> simp

lemma fluorSampleRun_mem_body (proc : SeedArgs → ProcessOutcome) (p : FluorParams)
    (bfS flS s : String) (files : List FileObj) {e : BatchEv}
    (h : e ∈ (fluorFiles proc p bfS flS s
      { sample_name := s, radial_threshold_ratio := p.radial_threshold_ratio }
      files).1) :
    e ∈ (fluorSampleRun proc p bfS flS s files).1 := by
  simp only [fluorSampleRun, List.mem_append]
  exact Or.inl (Or.inl h)

lemma fluorSampleRun_bf_warning (proc : SeedArgs → ProcessOutcome)
    (p : FluorParams) (bfS flS s : String) (files : List FileObj)
    (h : pyFalsy (fluorSampleRun proc p bfS flS s files).2.total_seeds = true) :
    BatchEv.out (bfMissingMsg bfS s) ∈ (fluorSampleRun proc p bfS flS s files).1 := by
  rw [fluorSampleRun_result] at h
  simp only [fluorSampleRun, List.mem_append]
  rw [h]
  simp

lemma fluorSampleRun_fl_warning (proc : SeedArgs → ProcessOutcome)
    (p : FluorParams) (bfS flS s : String) (files : List FileObj)
    (h : pyFalsy (fluorSampleRun proc p bfS flS s files).2.marker_seeds = true) :
    BatchEv.out (flMissingMsg flS s) ∈ (fluorSampleRun proc p bfS flS s files).1 := by
  rw [fluorSampleRun_result] at h
  simp only [fluorSampleRun, List.mem_append]
  rw [h]
  simp

lemma process_fluorescent_batch_eq (proc : SeedArgs → ProcessOutcome)
    (m : List (String × List FileObj)) (p : FluorParams) :
    process_fluorescent_batch proc m p =
      fluorBlocks proc m p ++ [.outResults (fluorResults proc m p)] :=
  rfl

lemma lookup_of_mem {β : Type} {m : List (String × β)} {s : String} {v : β}
    (hnd : (m.map Prod.fst).Nodup) (h : (s, v) ∈ m) :
    List.lookup s m = some v := by
  induction m with
  | nil => cases h
  | cons kv rest ih =>
    obtain ⟨k, w⟩ := kv
    simp only [List.map_cons, List.nodup_cons] at hnd
    rcases List.mem_cons.mp h with heq | hmem
    · cases heq
      simp [List.lookup]
    · have hs : s ∈ rest.map Prod.fst := List.mem_map.mpr ⟨(s, v), hmem, rfl⟩
    -- the head key differs from s, so lookup moves to the tail
      have hne : (s == k) = false := by
        rw [beq_eq_false_iff_ne]
        intro heq2
        exact hnd.1 (heq2 ▸ hs)
      simp only [List.lookup, hne]
      exact ih hnd.2 hmem

lemma filesOf_eq {m : List (String × List FileObj)} {s : String}
    {files : List FileObj} (hnd : (m.map Prod.fst).Nodup) (h : (s, files) ∈ m) :
    filesOf m s = files := by
  unfold filesOf
  rw [lookup_of_mem hnd h]
  rfl

lemma mem_sortedKeys_of_mem {β : Type} {m : List (String × β)} {s : String}
    {v : β} (h : (s, v) ∈ m) : s ∈ sortedKeys m :=
  (List.perm_insertionSort _ _).mem_iff.mpr (List.mem_map.mpr ⟨(s, v), h, rfl⟩)

lemma mem_fluorBlocks_of_mem_sample (proc : SeedArgs → ProcessOutcome)
    (m : List (String × List FileObj)) (p : FluorParams) {s : String}
    (hs : s ∈ sortedKeys m) {e : BatchEv}
    (h : e ∈ (fluorSampleRun proc p (fluorSuffixes p).1 (fluorSuffixes p).2 s
      (filesOf m s)).1) :
    e ∈ fluorBlocks proc m p := by
  have hs2 : s ∈ (sortedKeys m).enum.map Prod.snd := by
    rw [List.enum_map_snd]
    exact hs
  obtain ⟨is, hmem, hsnd⟩ := List.mem_map.mp hs2
  refine List.mem_flatMap.mpr ⟨is, hmem, ?_⟩
  rw [hsnd]
  exact List.mem_cons_of_mem _ h

lemma mem_batch_of_mem_blocks (proc : SeedArgs → ProcessOutcome)
    (m : List (String × List FileObj)) (p : FluorParams) {e : BatchEv}
    (h : e ∈ fluorBlocks proc m p) :
    e ∈ process_fluorescent_batch proc m p := by
  rw [process_fluorescent_batch_eq]
  exact List.mem_append_left _ h

lemma fluorBlocks_no_outResults (proc : SeedArgs → ProcessOutcome)
    (m : List (String × List FileObj)) (p : FluorParams) (rs : List Result) :
    BatchEv.outResults rs ∉ fluorBlocks proc m p := by
  intro hmem
  obtain ⟨is, _, hin⟩ := List.mem_flatMap.mp hmem
  rcases List.mem_cons.mp hin with heq | hbody
  · cases heq
  · exact fluorSampleRun_no_outResults proc p _ _ _ _ rs hbody

lemma fluor_batch_calls (proc : SeedArgs → ProcessOutcome)
    (m : List (String × List FileObj)) (p : FluorParams) :
    seedCallsOf (process_fluorescent_batch proc m p) =
      (sortedKeys m).flatMap fun s =>
        (filesOf m s).filterMap
          (fileCall p (fluorSuffixes p).1 (fluorSuffixes p).2 s) := by
  rw [process_fluorescent_batch_eq, seedCallsOf_append]
  have h2 : seedCallsOf [BatchEv.outResults (fluorResults proc m p)] = [] := rfl
  rw [h2, List.append_nil]
  unfold fluorBlocks seedCallsOf
  rw [List.filterMap_flatMap]
  have h3 : ∀ is : Nat × String, is ∈ (sortedKeys m).enum →
      ((BatchEv.out (sampleHeader is.2 is.1 m.length) ::
        (fluorSampleRun proc p (fluorSuffixes p).1 (fluorSuffixes p).2 is.2
          (filesOf m is.2)).1).filterMap fun e =>
            match e with
            | BatchEv.callSeed a => some a
            | _ => none) =
      (filesOf m is.2).filterMap
        (fileCall p (fluorSuffixes p).1 (fluorSuffixes p).2 is.2) := by
    intro is _
    rw [List.filterMap_cons]
    exact fluorSampleRun_calls proc p _ _ _ _
  rw [List.flatMap_congr h3]
  have h4 : (sortedKeys m).enum.flatMap (fun is =>
      (filesOf m is.2).filterMap
        (fileCall p (fluorSuffixes p).1 (fluorSuffixes p).2 is.2)) =
      ((sortedKeys m).enum.map Prod.snd).flatMap (fun s =>
      (filesOf m s).filterMap
        (fileCall p (fluorSuffixes p).1 (fluorSuffixes p).2 s)) := by
    rw [List.flatMap_map]
  rw [h4, List.enum_map_snd]

/-! ### Shape of the yielded sequence -/

lemma yieldsOf_append (t u : List BatchEv) :
    yieldsOf (t ++ u) = yieldsOf t ++ yieldsOf u :=
  List.filterMap_append t u _

lemma yieldsOf_eq_map_inl {t : List BatchEv}
    (h : ∀ rs : List Result, BatchEv.outResults rs ∉ t) :
    yieldsOf t = (msgsOf t).map Sum.inl := by
  induction t with
  | nil => rfl
  | cons e es ih =>
    have hes : ∀ rs : List Result, BatchEv.outResults rs ∉ es := by
      intro rs hmem
      exact h rs (List.mem_cons_of_mem _ hmem)
    cases e with
    | out s => simp [yieldsOf, msgsOf, List.filterMap_cons] at ih ⊢; exact ih hes
    | callSeed a => simp [yieldsOf, msgsOf, List.filterMap_cons] at ih ⊢; exact ih hes
    | callColor a => simp [yieldsOf, msgsOf, List.filterMap_cons] at ih ⊢; exact ih hes
    | outResults rs => exact absurd (List.mem_cons_self _ _) (h rs)

/-! ### Lemmas about the colorimetric loop -/

lemma colorCallsOf_append (t u : List BatchEv) :
    colorCallsOf (t ++ u) = colorCallsOf t ++ colorCallsOf u :=
  List.filterMap_append t u _

lemma colorSampleRun_result (procColor : ColorArgs → ProcessOutcome × ProcessOutcome)
    (resultStr : Result → String) (p : ColorParams) (s : String)
    (f : SingleFileObj) :
    (colorSampleRun procColor resultStr p s f).2 =
      { sample_name := s
        total_seeds := some (procColor (colorArgs p s f.file_path)).1.num_seeds
        bf_thresh := some (procColor (colorArgs p s f.file_path)).1.brightness_threshold
        marker_seeds := some (procColor (colorArgs p s f.file_path)).2.num_seeds
        marker_thresh := some (procColor (colorArgs p s f.file_path)).2.brightness_threshold
        radial_threshold := (procColor (colorArgs p s f.file_path)).1.radial_threshold
        radial_threshold_ratio := p.radial_threshold_ratio } :=
  rfl

lemma colorSampleRun_calls (procColor : ColorArgs → ProcessOutcome × ProcessOutcome)
    (resultStr : Result → String) (p : ColorParams) (s : String)
    (f : SingleFileObj) :
    colorCallsOf (colorSampleRun procColor resultStr p s f).1 =
      [colorArgs p s f.file_path] := by
  simp only [colorSampleRun]
  cases pyFalsy (some (procColor (colorArgs p s f.file_path)).1.num_seeds) <;>
    cases pyFalsy (some (procColor (colorArgs p s f.file_path)).2.num_seeds) <;>
      simp [colorCallsOf, List.filterMap_cons, List.filterMap_append]

lemma colorSampleRun_no_outResults
    (procColor : ColorArgs → ProcessOutcome × ProcessOutcome)
    (resultStr : Result → String) (p : ColorParams) (s : String)
    (f : SingleFileObj) (rs : List Result) :
    BatchEv.outResults rs ∉ (colorSampleRun procColor resultStr p s f).1 := by
  simp only [colorSampleRun]
  cases pyFalsy (some (procColor (colorArgs p s f.file_path)).1.num_seeds) <;>
    cases pyFalsy (some (procColor (colorArgs p s f.file_path)).2.num_seeds) <;>
      simp

lemma colorSampleRun_noSeeds (procColor : ColorArgs → ProcessOutcome × ProcessOutcome)
    (resultStr : Result → String) (p : ColorParams) (s : String)
    (f : SingleFileObj)
    (h : pyFalsy (colorSampleRun procColor resultStr p s f).2.total_seeds = true) :
    BatchEv.out (noSeedsMsg s) ∈ (colorSampleRun procColor resultStr p s f).1 := by
  rw [colorSampleRun_result] at h
  simp only [colorSampleRun]
  rw [h]
  simp

lemma colorLoop_nil (procColor : ColorArgs → ProcessOutcome × ProcessOutcome)
    (resultStr : Result → String) (p : ColorParams)
    (m : List (String × List SingleFileObj)) (n i : Nat) :
    colorLoop procColor resultStr p m n i [] = ([], some []) :=
  rfl

lemma colorLoop_cons_empty (procColor : ColorArgs → ProcessOutcome × ProcessOutcome)
    (resultStr : Result → String) (p : ColorParams)
    (m : List (String × List SingleFileObj)) (n i : Nat) {s : String}
    (ss : List String) (h : filesOf m s = []) :
    colorLoop procColor resultStr p m n i (s :: ss) =
      ([.out (sampleHeader s i n)], none) := by
  unfold colorLoop
  rw [h]

lemma colorLoop_cons (procColor : ColorArgs → ProcessOutcome × ProcessOutcome)
    (resultStr : Result → String) (p : ColorParams)
    (m : List (String × List SingleFileObj)) (n i : Nat) {s : String}
    (ss : List String) {f : SingleFileObj} {fs : List SingleFileObj}
    (h : filesOf m s = f :: fs) :
    colorLoop procColor resultStr p m n i (s :: ss) =
      (.out (sampleHeader s i n) ::
        (colorSampleRun procColor resultStr p s f).1 ++
        (colorLoop procColor resultStr p m n (i + 1) ss).1,
       (colorLoop procColor resultStr p m n (i + 1) ss).2.map
         ((colorSampleRun procColor resultStr p s f).2 :: ·)) := by
  simp only [colorLoop]
  rw [h]

lemma colorLoop_results (procColor : ColorArgs → ProcessOutcome × ProcessOutcome)
    (resultStr : Result → String) (p : ColorParams)
    (m : List (String × List SingleFileObj)) (n : Nat) (ss : List String)
    (h : ∀ s ∈ ss, filesOf m s ≠ []) :
    ∀ i, (colorLoop procColor resultStr p m n i ss).2 =
      some (ss.map (colorResultOf procColor resultStr p m)) := by
  induction ss with
  | nil => intro i; rfl
  | cons s ss ih =>
    intro i
    cases hfs : filesOf m s with
    | nil => exact absurd hfs (h s (List.mem_cons_self _ _))
    | cons f fs =>
      rw [colorLoop_cons procColor resultStr p m n i ss hfs,
        ih (fun x hx => h x (List.mem_cons_of_mem _ hx)) (i + 1)]
      simp only [Option.map_some, List.map_cons]
      unfold colorResultOf
      rw [hfs]
      rfl

lemma colorLoop_mem (procColor : ColorArgs → ProcessOutcome × ProcessOutcome)
    (resultStr : Result → String) (p : ColorParams)
    (m : List (String × List SingleFileObj)) (n : Nat) (ss : List String)
    (hall : ∀ x ∈ ss, filesOf m x ≠ []) {s : String} (hs : s ∈ ss)
    {f : SingleFileObj} {fs : List SingleFileObj} (hf : filesOf m s = f :: fs)
    {e : BatchEv} (he : e ∈ (colorSampleRun procColor resultStr p s f).1) :
    ∀ i, e ∈ (colorLoop procColor resultStr p m n i ss).1 := by
  induction ss with
  | nil => cases hs
  | cons x ss ih =>
    intro i
    cases hxs : filesOf m x with
    | nil => exact absurd hxs (hall x (List.mem_cons_self _ _))
    | cons g gs =>
      rw [colorLoop_cons procColor resultStr p m n i ss hxs]
      rcases List.mem_cons.mp hs with heq | hmem
      · subst heq
        rw [hxs] at hf
        cases hf
        simp only [List.cons_append, List.mem_cons, List.mem_append]
        exact Or.inr (Or.inl he)
      · simp only [List.cons_append, List.mem_cons, List.mem_append]
        exact Or.inr (Or.inr
          (ih (fun y hy => hall y (List.mem_cons_of_mem _ hy)) hmem (i + 1)))

lemma colorLoop_call_mem (procColor : ColorArgs → ProcessOutcome × ProcessOutcome)
    (resultStr : Result → String) (p : ColorParams)
    (m : List (String × List SingleFileObj)) (n : Nat) (ss : List String)
    {a : ColorArgs} :
    ∀ i, a ∈ colorCallsOf (colorLoop procColor resultStr p m n i ss).1 →
      ∃ s f fs, s ∈ ss ∧ filesOf m s = f :: fs ∧ a = colorArgs p s f.file_path := by
  induction ss with
  | nil => intro i h; cases h
  | cons x ss ih =>
    intro i h
    cases hxs : filesOf m x with
    | nil =>
      rw [colorLoop_cons_empty procColor resultStr p m n i ss hxs] at h
      cases h
    | cons g gs =>
      rw [colorLoop_cons procColor resultStr p m n i ss hxs] at h
      simp only [List.cons_append, colorCallsOf, List.filterMap_cons,
        List.filterMap_append] at h
      rw [← colorCallsOf] at h
      rcases List.mem_append.mp h with hblk | hrest
      · rw [colorSampleRun_calls] at hblk
        rcases List.mem_singleton.mp hblk with rfl
        exact ⟨x, g, gs, List.mem_cons_self _ _, hxs, rfl⟩
      · obtain ⟨s, f, fs, hmem, hf, ha⟩ := ih (i + 1) hrest
        exact ⟨s, f, fs, List.mem_cons_of_mem _ hmem, hf, ha⟩

lemma colorLoop_results_mem (procColor : ColorArgs → ProcessOutcome × ProcessOutcome)
    (resultStr : Result → String) (p : ColorParams)
    (m : List (String × List SingleFileObj)) (n : Nat) (ss : List String)
    {r : Result} :
    ∀ i (rs : List Result),
      (colorLoop procColor resultStr p m n i ss).2 = some rs → r ∈ rs →
      ∃ s f fs, s ∈ ss ∧ filesOf m s = f :: fs ∧
        r = (colorSampleRun procColor resultStr p s f).2 ∧
        BatchEv.callColor (colorArgs p s f.file_path) ∈
          (colorLoop procColor resultStr p m n i ss).1 := by
  induction ss with
  | nil =>
    intro i rs h hr
    rw [colorLoop_nil] at h
    cases h
    cases hr
  | cons x ss ih =>
    intro i rs h hr
    cases hxs : filesOf m x with
    | nil =>
      rw [colorLoop_cons_empty procColor resultStr p m n i ss hxs] at h
      cases h
    | cons g gs =>
      rw [colorLoop_cons procColor resultStr p m n i ss hxs] at h ⊢
      cases hrest : (colorLoop procColor resultStr p m n (i + 1) ss).2 with
      | none => rw [hrest] at h; cases h
      | some rs2 =>
        rw [hrest] at h
        have h2 : (colorSampleRun procColor resultStr p x g).2 :: rs2 = rs := by
          simpa using h
        subst h2
        rcases List.mem_cons.mp hr with heq | hmem
        · refine ⟨x, g, gs, List.mem_cons_self _ _, hxs, heq, ?_⟩
          simp only [List.cons_append, List.mem_cons, List.mem_append]
          refine Or.inr (Or.inl ?_)
          show BatchEv.callColor (colorArgs p x g.file_path) ∈
            (colorSampleRun procColor resultStr p x g).1
          simp [colorSampleRun]
        · obtain ⟨s, f, fs, hmem2, hf, hreq, hcall⟩ := ih (i + 1) rs2 hrest hmem
          refine ⟨s, f, fs, List.mem_cons_of_mem _ hmem2, hf, hreq, ?_⟩
          simp only [List.cons_append, List.mem_cons, List.mem_append]
          exact Or.inr (Or.inr hcall)

lemma colorLoop_no_outResults (procColor : ColorArgs → ProcessOutcome × ProcessOutcome)
    (resultStr : Result → String) (p : ColorParams)
    (m : List (String × List SingleFileObj)) (n : Nat) (ss : List String)
    (rs : List Result) :
    ∀ i, BatchEv.outResults rs ∉ (colorLoop procColor resultStr p m n i ss).1 := by
  induction ss with
  | nil => intro i h; cases h
  | cons x ss ih =>
    intro i h
    cases hxs : filesOf m x with
    | nil =>
      rw [colorLoop_cons_empty procColor resultStr p m n i ss hxs] at h
      simp at h
    | cons g gs =>
      rw [colorLoop_cons procColor resultStr p m n i ss hxs] at h
      simp only [List.cons_append, List.mem_cons, List.mem_append] at h
      rcases h with h | h | h
      · cases h
      · exact colorSampleRun_no_outResults procColor resultStr p x g rs h
      · exact ih (i + 1) h

lemma process_colorimetric_batch_eq
    (procColor : ColorArgs → ProcessOutcome × ProcessOutcome)
    (resultStr : Result → String) (m : List (String × List SingleFileObj))
    (p : ColorParams) (h : ∀ s ∈ sortedKeys m, filesOf m s ≠ []) :
    process_colorimetric_batch procColor resultStr m p =
      ((colorLoop procColor resultStr p m m.length 0 (sortedKeys m)).1 ++
        [.outResults (colorResults procColor resultStr m p)], false) := by
  unfold process_colorimetric_batch
  have h2 := colorLoop_results procColor resultStr p m m.length (sortedKeys m) h 0
  cases hloop : colorLoop procColor resultStr p m m.length 0 (sortedKeys m) with
  | mk evs ores =>
    rw [hloop] at h2
    simp only at h2
    rw [h2]
    rfl

lemma mem_color_batch_of_mem_loop
    (procColor : ColorArgs → ProcessOutcome × ProcessOutcome)
    (resultStr : Result → String) (m : List (String × List SingleFileObj))
    (p : ColorParams) {e : BatchEv}
    (h : e ∈ (colorLoop procColor resultStr p m m.length 0 (sortedKeys m)).1) :
    e ∈ (process_colorimetric_batch procColor resultStr m p).1 := by
  unfold process_colorimetric_batch
  cases hloop : colorLoop procColor resultStr p m m.length 0 (sortedKeys m) with
  | mk evs ores =>
    rw [hloop] at h
    cases ores with
    | none => exact h
    | some rs => exact List.mem_append_left _ h

/-! ### Generic helpers: lastMatch, sorted keys, dict folds -/

lemma lastMatch_mem {α : Type} {pred : α → Bool} {l : List α} {x : α}
    (h : lastMatch pred l = some x) : x ∈ l ∧ pred x = true := by
  induction l with
  | nil => cases h
  | cons f fs ih =>
    rw [lastMatch] at h
    cases hl : lastMatch pred fs with
    | some g =>
      rw [hl] at h
      cases h
      obtain ⟨hmem, hp⟩ := ih hl
      exact ⟨List.mem_cons_of_mem _ hmem, hp⟩
    | none =>
      rw [hl] at h
      by_cases hp : pred f = true
      · rw [if_pos hp] at h
        cases h
        exact ⟨List.mem_cons_self _ _, hp⟩
      · rw [if_neg hp] at h
        cases h

lemma lastMatch_isSome_of_mem {α : Type} {pred : α → Bool} {l : List α} {x : α}
    (hmem : x ∈ l) (hp : pred x = true) : ∃ y, lastMatch pred l = some y := by
  induction l with
  | nil => cases hmem
  | cons f fs ih =>
    rcases List.mem_cons.mp hmem with heq | hmem2
    · subst heq
      rw [lastMatch]
      cases hl : lastMatch pred fs with
      | some g => exact ⟨g, rfl⟩
      | none => exact ⟨x, by rw [if_pos hp]⟩
    · obtain ⟨y, hy⟩ := ih hmem2
      rw [lastMatch, hy]
      exact ⟨y, rfl⟩

lemma sortedKeys_length {β : Type} (m : List (String × β)) :
    (sortedKeys m).length = m.length := by
  unfold sortedKeys
  rw [List.length_insertionSort, List.length_map]

lemma sortedKeys_perm {β : Type} (m : List (String × β)) :
    (sortedKeys m).Perm (m.map Prod.fst) :=
  List.perm_insertionSort _ _

lemma sortedKeys_sorted {β : Type} (m : List (String × β)) :
    List.Sorted (· ≤ ·) (sortedKeys m) :=
  List.sorted_insertionSort _ _

lemma sortedKeys_nodup {β : Type} {m : List (String × β)}
    (hnd : (m.map Prod.fst).Nodup) : (sortedKeys m).Nodup :=
  ((sortedKeys_perm m).nodup_iff).mpr hnd

lemma filterMap_fileCall_length (p : FluorParams) (bfS flS s : String)
    (files : List FileObj) :
    (files.filterMap (fileCall p bfS flS s)).length =
      (files.filter (isKnown bfS flS)).length := by
  induction files with
  | nil => rfl
  | cons f fs ih =>
    rw [List.filterMap_cons, List.filter_cons]
    by_cases h1 : f.img_type = bfS
    · rw [fileCall_bf h1, isKnown_of_bf h1]
      simp [ih]
    · by_cases h2 : f.img_type = flS
      · rw [fileCall_fl h1 h2, isKnown_of_fl h1 h2]
        simp [ih]
      · rw [fileCall_none h1 h2, isKnown_of_unknown h1 h2]
        simp [ih]

lemma fileCall_sample_name {p : FluorParams} {bfS flS s : String} {f : FileObj}
    {a : SeedArgs} (h : fileCall p bfS flS s f = some a) : a.sample_name = s := by
  unfold fileCall at h
  by_cases h1 : isBf bfS f = true
  · rw [if_pos h1] at h
    cases h
    rfl
  · rw [if_neg h1] at h
    by_cases h2 : isFl bfS flS f = true
    · rw [if_pos h2] at h
      cases h
      rfl
    · rw [if_neg h2] at h
      cases h

lemma flatMap_filter_name {l : List String} {s : String}
    (g : String → List SeedArgs) (hnd : l.Nodup) (hs : s ∈ l)
    (hname : ∀ x, ∀ a ∈ g x, a.sample_name = x) :
    (l.flatMap g).filter (fun a => a.sample_name == s) = g s := by
  induction l with
  | nil => cases hs
  | cons x ls ih =>
    rw [List.flatMap_cons, List.filter_append]
    rcases List.mem_cons.mp hs with heq | hmem
    · subst heq
      have hx : (g s).filter (fun a => a.sample_name == s) = g s := by
        rw [List.filter_eq_self]
        intro a ha
        simp [hname s a ha]
      have hrest : (ls.flatMap g).filter (fun a => a.sample_name == s) = [] := by
        rw [List.filter_eq_nil_iff]
        intro a ha
        obtain ⟨y, hy, hay⟩ := List.mem_flatMap.mp ha
        have : a.sample_name = y := hname y a hay
        have hne : y ≠ s := fun hc => (List.nodup_cons.mp hnd).1 (hc ▸ hy)
        simp [this, hne]
      rw [hx, hrest, List.append_nil]
    · have hx : (g x).filter (fun a => a.sample_name == s) = [] := by
        rw [List.filter_eq_nil_iff]
        intro a ha
        have : a.sample_name = x := hname x a ha
        have hne : x ≠ s := fun hc => (List.nodup_cons.mp hnd).1 (hc ▸ hmem)
        simp [this, hne]
      rw [hx, ih (List.nodup_cons.mp hnd).2 hmem, List.nil_append]

lemma lookup_dictInsert_self {β : Type} (m : List (String × β)) (k : String)
    (v : β) : List.lookup k (dictInsert m k v) = some v := by
  induction m with
  | nil => simp [dictInsert, List.lookup]
  | cons kv rest ih =>
    obtain ⟨k2, v2⟩ := kv
    unfold dictInsert
    by_cases h : k2 = k
    · rw [if_pos h]
      subst h
      simp [List.lookup]
    · rw [if_neg h]
      have hbeq : (k == k2) = false := by
        rw [beq_eq_false_iff_ne]
        exact fun hc => h hc.symm
      simp only [List.lookup, hbeq]
      exact ih

lemma lookup_dictInsert_ne {β : Type} (m : List (String × β)) {q k : String}
    (v : β) (h : q ≠ k) :
    List.lookup q (dictInsert m k v) = List.lookup q m := by
  induction m with
  | nil =>
    have hbeq : (q == k) = false := beq_eq_false_iff_ne.mpr h
    simp [dictInsert, List.lookup, hbeq]
  | cons kv rest ih =>
    obtain ⟨k2, v2⟩ := kv
    unfold dictInsert
    by_cases h2 : k2 = k
    · rw [if_pos h2]
      subst h2
      have hbeq : (q == k2) = false := beq_eq_false_iff_ne.mpr h
      simp only [List.lookup, hbeq]
    · rw [if_neg h2]
      simp only [List.lookup]
      cases hbeq : (q == k2) with
      | true => rfl
      | false => exact ih

lemma lookup_foldl_dictInsert {α β : Type} (key : α → String) (val : α → β)
    (k : String) :
    ∀ (l : List α) (acc : List (String × β)),
      List.lookup k (l.foldl (fun a f => dictInsert a (key f) (val f)) acc) =
        (match lastMatch (fun f => key f == k) l with
         | some f => some (val f)
         | none => List.lookup k acc) := by
  intro l
  induction l with
  | nil => intro acc; rfl
  | cons f fs ih =>
    intro acc
    rw [List.foldl_cons, ih]
    cases hl : lastMatch (fun f => key f == k) fs with
    | some g => rw [lastMatch, hl]
    | none =>
      rw [lastMatch, hl]
      cases hq : (key f == k) with
      | true =>
        have : key f = k := by simpa using hq
        rw [if_pos rfl]
        subst this
        exact lookup_dictInsert_self acc (key f) (val f)
      | false =>
        rw [if_neg (by simp)]
        have hne : k ≠ key f := by
          have : key f ≠ k := by simpa using hq
          exact fun hc => this hc.symm
        exact lookup_dictInsert_ne acc (val f) hne

lemma mem_dictInsert {β : Type} {m : List (String × β)} {k : String} {v : β}
    {kv : String × β} (h : kv ∈ dictInsert m k v) :
    kv ∈ m ∨ (kv.1 = k ∧ kv.2 = v) := by
  induction m with
  | nil =>
    rcases List.mem_singleton.mp h with rfl
    exact Or.inr ⟨rfl, rfl⟩
  | cons kv2 rest ih =>
    obtain ⟨k2, v2⟩ := kv2
    unfold dictInsert at h
    by_cases h2 : k2 = k
    · rw [if_pos h2] at h
      rcases List.mem_cons.mp h with heq | hmem
      · subst heq
        exact Or.inr ⟨h2, rfl⟩
      · exact Or.inl (List.mem_cons_of_mem _ hmem)
    · rw [if_neg h2] at h
      rcases List.mem_cons.mp h with heq | hmem
      · exact Or.inl (heq ▸ List.mem_cons_self _ _)
      · rcases ih hmem with hin | hnew
        · exact Or.inl (List.mem_cons_of_mem _ hin)
        · exact Or.inr hnew

lemma mem_foldl_dictInsert {α β : Type} (key : α → String) (val : α → β) :
    ∀ (l : List α) (acc : List (String × β)) (kv : String × β),
      kv ∈ l.foldl (fun a f => dictInsert a (key f) (val f)) acc →
        kv ∈ acc ∨ ∃ f ∈ l, kv.1 = key f ∧ kv.2 = val f := by
  intro l
  induction l with
  | nil => intro acc kv h; exact Or.inl h
  | cons f fs ih =>
    intro acc kv h
    rw [List.foldl_cons] at h
    rcases ih _ kv h with hacc | ⟨g, hg, hkv⟩
    · rcases mem_dictInsert hacc with hin | hnew
      · exact Or.inl hin
      · exact Or.inr ⟨f, List.mem_cons_self _ _, hnew⟩
    · exact Or.inr ⟨g, List.mem_cons_of_mem _ hg, hkv⟩

lemma lastMatch_middle {α : Type} {pred : α → Bool} {f : α}
    (h : pred f = false) :
    ∀ (l1 l2 : List α),
      lastMatch pred (l1 ++ f :: l2) = lastMatch pred (l1 ++ l2) := by
  intro l1
  induction l1 with
  | nil => intro l2; exact lastMatch_cons_of_false h
  | cons x xs ih =>
    intro l2
    have e1 : lastMatch pred ((x :: xs) ++ f :: l2) =
        (match lastMatch pred (xs ++ f :: l2) with
         | some g => some g
         | none => if pred x then some x else none) := rfl
    have e2 : lastMatch pred ((x :: xs) ++ l2) =
        (match lastMatch pred (xs ++ l2) with
         | some g => some g
         | none => if pred x then some x else none) := rfl
    rw [e1, e2, ih l2]

lemma result_eq_of_fields {r1 r2 : Result} (h1 : r1.sample_name = r2.sample_name)
    (h2 : r1.total_seeds = r2.total_seeds)
    (h3 : r1.marker_seeds = r2.marker_seeds) (h4 : r1.bf_thresh = r2.bf_thresh)
    (h5 : r1.marker_thresh = r2.marker_thresh)
    (h6 : r1.radial_threshold = r2.radial_threshold)
    (h7 : r1.radial_threshold_ratio = r2.radial_threshold_ratio) : r1 = r2 := by
  cases r1
  cases r2
  simp only [Result.mk.injEq]
  exact ⟨h1, h2, h3, h4, h5, h6, h7⟩

lemma callSeed_mem_of_mem_calls {t : List BatchEv} {a : SeedArgs}
    (h : a ∈ seedCallsOf t) : BatchEv.callSeed a ∈ t := by
  obtain ⟨e, he, hm⟩ := List.mem_filterMap.mp h
  cases e with
  | callSeed b =>
    have hba : b = a := by simpa using hm
    subst hba
    exact he
  | out x => simp at hm
  | callColor x => simp at hm
  | outResults x => simp at hm

lemma mem_calls_of_callSeed {t : List BatchEv} {a : SeedArgs}
    (h : BatchEv.callSeed a ∈ t) : a ∈ seedCallsOf t :=
  List.mem_filterMap.mpr ⟨_, h, rfl⟩

lemma callColor_mem_of_mem_calls {t : List BatchEv} {a : ColorArgs}
    (h : a ∈ colorCallsOf t) : BatchEv.callColor a ∈ t := by
  obtain ⟨e, he, hm⟩ := List.mem_filterMap.mp h
  cases e with
  | callColor b =>
    have hba : b = a := by simpa using hm
    subst hba
    exact he
  | out x => simp at hm
  | callSeed x => simp at hm
  | outResults x => simp at hm

lemma mem_calls_of_callColor {t : List BatchEv} {a : ColorArgs}
    (h : BatchEv.callColor a ∈ t) : a ∈ colorCallsOf t :=
  List.mem_filterMap.mpr ⟨_, h, rfl⟩

lemma fluorFiles_unknown_msg (proc : SeedArgs → ProcessOutcome) (p : FluorParams)
    (bfS flS s : String) {f : FileObj} (h1 : ¬ f.img_type = bfS)
    (h2 : ¬ f.img_type = flS) :
    ∀ (files : List FileObj) (r : Result), f ∈ files →
      BatchEv.out ("\tUnknown image type for " ++ f.file_name) ∈
        (fluorFiles proc p bfS flS s r files).1 := by
  intro files
  induction files with
  | nil => intro r h; cases h
  | cons g gs ih =>
    intro r hmem
    rw [fluorFiles_cons]
    rcases List.mem_cons.mp hmem with heq | hmem2
    · subst heq
      rw [fluorFileStep_unknown proc p s r h1 h2]
      simp
    · simp only [List.mem_append]
      exact Or.inr (ih _ hmem2)

lemma seedCall_shape {proc : SeedArgs → ProcessOutcome}
    {m : List (String × List FileObj)} {p : FluorParams} {a : SeedArgs}
    (h : a ∈ seedCallsOf (process_fluorescent_batch proc m p)) :
    ∃ s f, s ∈ sortedKeys m ∧ f ∈ filesOf m s ∧
      fileCall p (fluorSuffixes p).1 (fluorSuffixes p).2 s f = some a := by
  rw [fluor_batch_calls] at h
  obtain ⟨s, hs, ha⟩ := List.mem_flatMap.mp h
  obtain ⟨f, hf, hcall⟩ := List.mem_filterMap.mp ha
  exact ⟨s, f, hs, hf, hcall⟩

lemma fileCall_fields {p : FluorParams} {bfS flS s : String} {f : FileObj}
    {a : SeedArgs} (h : fileCall p bfS flS s f = some a) :
    a.radial_threshold = p.radial_thresh ∧
      a.radial_threshold_ratio = p.radial_threshold_ratio := by
  unfold fileCall at h
  by_cases h1 : isBf bfS f = true
  · rw [if_pos h1] at h
    cases h
    exact ⟨rfl, rfl⟩
  · rw [if_neg h1] at h
    by_cases h2 : isFl bfS flS f = true
    · rw [if_pos h2] at h
      cases h
      exact ⟨rfl, rfl⟩
    · rw [if_neg h2] at h
      cases h

lemma color_batch_call_mem {procColor : ColorArgs → ProcessOutcome × ProcessOutcome}
    {resultStr : Result → String} {m : List (String × List SingleFileObj)}
    {p : ColorParams} {a : ColorArgs}
    (h : a ∈ colorCallsOf (process_colorimetric_batch procColor resultStr m p).1) :
    ∃ s f fs, s ∈ sortedKeys m ∧ filesOf m s = f :: fs ∧
      a = colorArgs p s f.file_path := by
  unfold process_colorimetric_batch at h
  cases hloop : colorLoop procColor resultStr p m m.length 0 (sortedKeys m) with
  | mk evs ores =>
    rw [hloop] at h
    cases ores with
    | none =>
      refine colorLoop_call_mem procColor resultStr p m m.length (sortedKeys m) 0 ?_
      rw [hloop]
      exact h
    | some rs =>
      simp only at h
      rw [colorCallsOf_append] at h
      have h2 : colorCallsOf [BatchEv.outResults rs] = [] := rfl
      rw [h2, List.append_nil] at h
      refine colorLoop_call_mem procColor resultStr p m m.length (sortedKeys m) 0 ?_
      rw [hloop]
      exact h

lemma option_map_match {α β : Type} (x : Option α) (g : α → β) :
    (match x with
     | some f => some (g f)
     | none => none) = x.map g := by
  cases x <;> rfl

lemma color_batch_outResults {procColor : ColorArgs → ProcessOutcome × ProcessOutcome}
    {resultStr : Result → String} {m : List (String × List SingleFileObj)}
    {p : ColorParams} {rs : List Result}
    (h : BatchEv.outResults rs ∈ (process_colorimetric_batch procColor resultStr m p).1) :
    (colorLoop procColor resultStr p m m.length 0 (sortedKeys m)).2 = some rs := by
  unfold process_colorimetric_batch at h
  cases hloop : colorLoop procColor resultStr p m m.length 0 (sortedKeys m) with
  | mk evs ores =>
    rw [hloop] at h
    have hnores : BatchEv.outResults rs ∉ evs := by
      have := colorLoop_no_outResults procColor resultStr p m m.length
        (sortedKeys m) rs 0
      rw [hloop] at this
      exact this
    cases ores with
    | none => exact absurd h hnores
    | some rs0 =>
      simp only at h
      rcases List.mem_append.mp h with hin | hlast
      · exact absurd hin hnores
      · rcases List.mem_singleton.mp hlast with heq
        have : rs = rs0 := by
          injection heq
        rw [this]

lemma collect_single_fst (input_dir : String) (listing : List String) :
    (collect_single_img_files input_dir listing).1 =
      (listing.filter fun f =>
        VALID_EXTENSIONS.contains (extLower (splitext f).2)).foldl
        (fun acc f => dictInsert acc (splitext f).1
          [SingleFileObj.mk (input_dir ++ "/" ++ f) f]) [] :=
  rfl

lemma collect_single_snd (input_dir : String) (listing : List String) :
    (collect_single_img_files input_dir listing).2 =
      listing.filter fun f =>
        VALID_EXTENSIONS.contains (extLower (splitext f).2) :=
  rfl

lemma collect_single_lookup (input_dir : String) (listing : List String)
    (k : String) :
    List.lookup k (collect_single_img_files input_dir listing).1 =
      (lastMatch (fun f => (splitext f).1 == k)
          (collect_single_img_files input_dir listing).2).map
        (fun f => [SingleFileObj.mk (input_dir ++ "/" ++ f) f]) := by
  rw [collect_single_fst, collect_single_snd,
    lookup_foldl_dictInsert (fun f => (splitext f).1)
      (fun f => [SingleFileObj.mk (input_dir ++ "/" ++ f) f]) k
      (listing.filter fun f => VALID_EXTENSIONS.contains (extLower (splitext f).2))
      [],
    ← option_map_match]
  cases lastMatch (fun f => (splitext f).1 == k)
    (listing.filter fun f => VALID_EXTENSIONS.contains (extLower (splitext f).2)) <;>
      rfl

lemma fluorResults_names (proc : SeedArgs → ProcessOutcome)
    (m : List (String × List FileObj)) (p : FluorParams) :
    (fluorResults proc m p).map (fun r => r.sample_name) = sortedKeys m := by
  unfold fluorResults
  rw [List.map_map]
  have hmap : ∀ s ∈ sortedKeys m,
      ((fun r : Result => r.sample_name) ∘ fun s =>
        (fluorSampleRun proc p (fluorSuffixes p).1 (fluorSuffixes p).2 s
          (filesOf m s)).2) s = s := by
    intro s _
    exact fluorSampleRun_name proc p _ _ s _
  rw [List.map_congr_left hmap]
  simp

lemma colorResults_names (procColor : ColorArgs → ProcessOutcome × ProcessOutcome)
    (resultStr : Result → String) (mc : List (String × List SingleFileObj))
    (p2 : ColorParams) :
    (colorResults procColor resultStr mc p2).map (fun r => r.sample_name) =
      sortedKeys mc := by
  unfold colorResults
  rw [List.map_map]
  have hmap : ∀ s ∈ sortedKeys mc,
      ((fun r : Result => r.sample_name) ∘
        colorResultOf procColor resultStr p2 mc) s = s := by
    intro s _
    rw [Function.comp_apply]
    unfold colorResultOf
    cases filesOf mc s with
    | nil => rfl
    | cons f fs => rfl
  rw [List.map_congr_left hmap]
  simp

lemma fluorResults_length (proc : SeedArgs → ProcessOutcome)
    (m : List (String × List FileObj)) (p : FluorParams) :
    (fluorResults proc m p).length = m.length := by
  unfold fluorResults
  rw [List.length_map, sortedKeys_length]

lemma colorResults_length (procColor : ColorArgs → ProcessOutcome × ProcessOutcome)
    (resultStr : Result → String) (mc : List (String × List SingleFileObj))
    (p2 : ColorParams) :
    (colorResults procColor resultStr mc p2).length = mc.length := by
  unfold colorResults
  rw [List.length_map, sortedKeys_length]

/-! ## The claims -/

/-- C9: the mapping returned by collect_single_img_files binds each sample
name to at most one descriptor: the value looked up under a name k is
exactly the singleton descriptor of the LAST enumerated valid-extension file
whose stem is k (earlier files with the same stem are silently overwritten),
and a name with no such file is absent. -/
theorem C9_collect_single_last_file_wins (input_dir : String)
    (listing : List String) (k : String) :
    List.lookup k (collect_single_img_files input_dir listing).1 =
      (lastMatch (fun f => (splitext f).1 == k)
          (collect_single_img_files input_dir listing).2).map
        (fun f => [SingleFileObj.mk (input_dir ++ "/" ++ f) f]) :=
  collect_single_lookup input_dir listing k

/-- C6: every valid-extension file collected in colorimetric mode is
recorded under its filename stem: the stem of f is a key of the returned
mapping whose value is the singleton descriptor of a collected file with the
same stem, and conversely every binding of the mapping is keyed by the stem
of the file it records. -/
theorem C6_collect_single_stem_is_sample_id (input_dir : String)
    (listing : List String) (f : String) (hmem : f ∈ listing)
    (hvalid : VALID_EXTENSIONS.contains (extLower (splitext f).2) = true) :
    (∃ g, g ∈ (collect_single_img_files input_dir listing).2 ∧
      (splitext g).1 = (splitext f).1 ∧
      List.lookup (splitext f).1 (collect_single_img_files input_dir listing).1 =
        some [SingleFileObj.mk (input_dir ++ "/" ++ g) g]) ∧
    (∀ kv ∈ (collect_single_img_files input_dir listing).1,
      ∃ g, g ∈ (collect_single_img_files input_dir listing).2 ∧
        kv.1 = (splitext g).1 ∧
        kv.2 = [SingleFileObj.mk (input_dir ++ "/" ++ g) g]) := by
  constructor
  · have hff : f ∈ (collect_single_img_files input_dir listing).2 := by
      rw [collect_single_snd]
      exact List.mem_filter.mpr ⟨hmem, hvalid⟩
    obtain ⟨g, hg⟩ := @lastMatch_isSome_of_mem String
      (fun x => (splitext x).1 == (splitext f).1) _ _ hff (by simp)
    obtain ⟨hgmem, hgpred⟩ := lastMatch_mem hg
    refine ⟨g, hgmem, by simpa using hgpred, ?_⟩
    rw [collect_single_lookup, hg]
    rfl
  · intro kv hkv
    rw [collect_single_fst] at hkv
    rcases mem_foldl_dictInsert (fun g => (splitext g).1)
        (fun g => [SingleFileObj.mk (input_dir ++ "/" ++ g) g]) _ [] kv hkv with
      hacc | ⟨g, hgmem, hk, hv⟩
    · cases hacc
    · exact ⟨g, by rw [collect_single_snd]; exact hgmem, hk, hv⟩

/-- C7: when the command line does not supply radial_threshold_ratio, the
argparse default 0.4 is used, and every per-image call made by either batch
function invoked from main receives radial_threshold_ratio = 0.4. -/
theorem C7_radial_threshold_ratio_defaults_to_two_fifths
    (proc : SeedArgs → ProcessOutcome)
    (procColor : ColorArgs → ProcessOutcome × ProcessOutcome)
    (resultStr : Result → String) (m : List (String × List FileObj))
    (mc : List (String × List SingleFileObj)) (bf fl : Option Int)
    (rt laf : Option ℚ) (dir : Option String) (bfS flS : String) (pl : Bool) :
    main_radial_threshold_ratio none = 0.4 ∧
    (∀ a ∈ seedCallsOf (process_fluorescent_batch proc m
        (mainFluorParams bf fl rt dir bfS flS none laf pl)),
      a.radial_threshold_ratio = some 0.4) ∧
    (∀ a ∈ colorCallsOf (process_colorimetric_batch procColor resultStr mc
        (mainColorParams bf rt dir none laf pl)).1,
      a.radial_threshold_ratio = some 0.4) := by
  refine ⟨rfl, ?_, ?_⟩
  · intro a ha
    obtain ⟨s, f, _, _, hcall⟩ := seedCall_shape ha
    exact (fileCall_fields hcall).2
  · intro a ha
    obtain ⟨s, f, fs, _, _, ha2⟩ := color_batch_call_mem ha
    subst ha2
    rfl

/-- C10: both batch generators process samples in ascending sorted order of
sample name: the final results list names the samples exactly in
sortedKeys order, which is sorted and a permutation of the mapping keys;
for the colorimetric batch the results list is the one actually yielded
whenever no sample has an empty descriptor list. (Both generators are pure
functions of the mapping and the per-image processors, so repeated runs on
identical inputs are identical by definitional equality.) -/
theorem C10_samples_processed_in_sorted_order (proc : SeedArgs → ProcessOutcome)
    (procColor : ColorArgs → ProcessOutcome × ProcessOutcome)
    (resultStr : Result → String) (m : List (String × List FileObj))
    (p : FluorParams) (mc : List (String × List SingleFileObj))
    (p2 : ColorParams) :
    ((fluorResults proc m p).map (fun r => r.sample_name) = sortedKeys m ∧
      BatchEv.outResults (fluorResults proc m p) ∈
        process_fluorescent_batch proc m p ∧
      List.Sorted (· ≤ ·) (sortedKeys m) ∧
      (sortedKeys m).Perm (m.map Prod.fst)) ∧
    ((colorResults procColor resultStr mc p2).map (fun r => r.sample_name) =
        sortedKeys mc ∧
      List.Sorted (· ≤ ·) (sortedKeys mc) ∧
      (sortedKeys mc).Perm (mc.map Prod.fst) ∧
      ((∀ s ∈ sortedKeys mc, filesOf mc s ≠ []) →
        BatchEv.outResults (colorResults procColor resultStr mc p2) ∈
          (process_colorimetric_batch procColor resultStr mc p2).1)) := by
  refine ⟨⟨fluorResults_names proc m p, ?_, sortedKeys_sorted m,
    sortedKeys_perm m⟩,
    ⟨colorResults_names procColor resultStr mc p2, sortedKeys_sorted mc,
      sortedKeys_perm mc, ?_⟩⟩
  · rw [process_fluorescent_batch_eq]
    exact List.mem_append_right _ (List.mem_singleton.mpr rfl)
  · intro hall
    rw [process_colorimetric_batch_eq procColor resultStr mc p2 hall]
    exact List.mem_append_right _ (List.mem_singleton.mpr rfl)

/-- C2: a caller-supplied radial_thresh is passed verbatim to every
per-image call of both batch functions, and the radial_threshold recorded in
each sample's Result is exactly the radial_threshold field of a per-image
outcome of that sample (none only when the sample had no recognized image),
with no modification by the batch layer. -/
theorem C2_radial_thresh_passed_verbatim (proc : SeedArgs → ProcessOutcome)
    (procColor : ColorArgs → ProcessOutcome × ProcessOutcome)
    (resultStr : Result → String) (m : List (String × List FileObj))
    (p : FluorParams) (mc : List (String × List SingleFileObj))
    (p2 : ColorParams) (v : ℚ) (hp : p.radial_thresh = some v)
    (hp2 : p2.radial_thresh = some v) :
    (∀ a ∈ seedCallsOf (process_fluorescent_batch proc m p),
      a.radial_threshold = some v) ∧
    (∀ a ∈ colorCallsOf (process_colorimetric_batch procColor resultStr mc p2).1,
      a.radial_threshold = some v) ∧
    (∀ r ∈ fluorResults proc m p, r.radial_threshold = none ∨
      ∃ a ∈ seedCallsOf (process_fluorescent_batch proc m p),
        a.sample_name = r.sample_name ∧
        r.radial_threshold = (proc a).radial_threshold) ∧
    (∀ rs, BatchEv.outResults rs ∈
        (process_colorimetric_batch procColor resultStr mc p2).1 →
      ∀ r ∈ rs, ∃ a ∈
          colorCallsOf (process_colorimetric_batch procColor resultStr mc p2).1,
        a.sample_name = r.sample_name ∧
        r.radial_threshold = (procColor a).1.radial_threshold) := by
  refine ⟨?_, ?_, ?_, ?_⟩
  · intro a ha
    obtain ⟨s, f, _, _, hcall⟩ := seedCall_shape ha
    rw [(fileCall_fields hcall).1, hp]
  · intro a ha
    obtain ⟨s, f, fs, _, _, ha2⟩ := color_batch_call_mem ha
    subst ha2
    show p2.radial_thresh = some v
    exact hp2
  · intro r hr
    unfold fluorResults at hr
    obtain ⟨s, hs, heq⟩ := List.mem_map.mp hr
    have hrad : r.radial_threshold =
        (match lastMatch (isKnown (fluorSuffixes p).1 (fluorSuffixes p).2)
            (filesOf m s) with
         | some f => (proc (seedArgsOf p (fluorSuffixes p).1 s f)).radial_threshold
         | none => none) := by
      rw [← heq, fluorSampleRun_result, fluorFiles_radial]
    cases hl : lastMatch (isKnown (fluorSuffixes p).1 (fluorSuffixes p).2)
      (filesOf m s) with
    | none =>
      rw [hl] at hrad
      exact Or.inl hrad
    | some f =>
      rw [hl] at hrad
      obtain ⟨hfmem, hknown⟩ := lastMatch_mem hl
      have hname : r.sample_name = s := by
        rw [← heq]
        exact fluorSampleRun_name proc p _ _ s _
      refine Or.inr ⟨seedArgsOf p (fluorSuffixes p).1 s f, ?_, ?_, hrad⟩
      · rw [fluor_batch_calls]
        refine List.mem_flatMap.mpr ⟨s, hs, List.mem_filterMap.mpr ⟨f, hfmem, ?_⟩⟩
        by_cases hbf : f.img_type = (fluorSuffixes p).1
        · rw [seedArgsOf_bf hbf]
          exact fileCall_bf hbf
        · have hfl : f.img_type = (fluorSuffixes p).2 := by
            unfold isKnown at hknown
            rw [isBf_not hbf, Bool.false_or] at hknown
            unfold isFl at hknown
            simp only [Bool.and_eq_true, bne_iff_ne, beq_iff_eq] at hknown
            exact hknown.2
          rw [seedArgsOf_fl hbf]
          exact fileCall_fl hbf hfl
      · rw [hname]
        by_cases hbf : f.img_type = (fluorSuffixes p).1
        · rw [seedArgsOf_bf hbf]
          rfl
        · rw [seedArgsOf_fl hbf]
          rfl
  · intro rs hrs r hr
    have hloop := color_batch_outResults hrs
    obtain ⟨s, f, fs, hsmem, hf, hreq, hcall⟩ :=
      colorLoop_results_mem procColor resultStr p2 mc mc.length (sortedKeys mc)
        0 rs hloop hr
    refine ⟨colorArgs p2 s f.file_path, ?_, ?_, ?_⟩
    · exact mem_calls_of_callColor
        (mem_color_batch_of_mem_loop procColor resultStr mc p2 hcall)
    · rw [hreq, colorSampleRun_result]
      rfl
    · rw [hreq, colorSampleRun_result]

/-- C8: in process_fluorescent_batch the missing-brightfield warning for a
sample is yielded whenever the sample's total_seeds is falsy, so a present
brightfield image whose outcome is zero seeds triggers the very same
"Couldn't find ... (brightfield) image" message as a missing brightfield
image (and likewise the fluorescent warning for marker_seeds). -/
theorem C8_zero_seeds_conflated_with_missing_image
    (proc : SeedArgs → ProcessOutcome) (m : List (String × List FileObj))
    (p : FluorParams) {s : String} {files : List FileObj}
    (hm : (s, files) ∈ m) (hnd : (m.map Prod.fst).Nodup) :
    (pyFalsy (fluorSampleRun proc p (fluorSuffixes p).1 (fluorSuffixes p).2 s
        files).2.total_seeds = true →
      BatchEv.out (bfMissingMsg (fluorSuffixes p).1 s) ∈
        process_fluorescent_batch proc m p) ∧
    (pyFalsy (fluorSampleRun proc p (fluorSuffixes p).1 (fluorSuffixes p).2 s
        files).2.marker_seeds = true →
      BatchEv.out (flMissingMsg (fluorSuffixes p).2 s) ∈
        process_fluorescent_batch proc m p) ∧
    (∀ f, lastMatch (isBf (fluorSuffixes p).1) files = some f →
      (proc (bfArgs p s f)).num_seeds = 0 →
      BatchEv.callSeed (bfArgs p s f) ∈ process_fluorescent_batch proc m p ∧
      BatchEv.out (bfMissingMsg (fluorSuffixes p).1 s) ∈
        process_fluorescent_batch proc m p) ∧
    (∀ f, lastMatch (isFl (fluorSuffixes p).1 (fluorSuffixes p).2) files =
        some f →
      (proc (flArgs p s f)).num_seeds = 0 →
      BatchEv.callSeed (flArgs p s f) ∈ process_fluorescent_batch proc m p ∧
      BatchEv.out (flMissingMsg (fluorSuffixes p).2 s) ∈
        process_fluorescent_batch proc m p) := by
  have hs : s ∈ sortedKeys m := mem_sortedKeys_of_mem hm
  have hfe : filesOf m s = files := filesOf_eq hnd hm
  have hwarn1 : pyFalsy (fluorSampleRun proc p (fluorSuffixes p).1
      (fluorSuffixes p).2 s files).2.total_seeds = true →
      BatchEv.out (bfMissingMsg (fluorSuffixes p).1 s) ∈
        process_fluorescent_batch proc m p := by
    intro h
    refine mem_batch_of_mem_blocks proc m p
      (mem_fluorBlocks_of_mem_sample proc m p hs ?_)
    rw [hfe]
    exact fluorSampleRun_bf_warning proc p _ _ s files h
  have hwarn2 : pyFalsy (fluorSampleRun proc p (fluorSuffixes p).1
      (fluorSuffixes p).2 s files).2.marker_seeds = true →
      BatchEv.out (flMissingMsg (fluorSuffixes p).2 s) ∈
        process_fluorescent_batch proc m p := by
    intro h
    refine mem_batch_of_mem_blocks proc m p
      (mem_fluorBlocks_of_mem_sample proc m p hs ?_)
    rw [hfe]
    exact fluorSampleRun_fl_warning proc p _ _ s files h
  refine ⟨hwarn1, hwarn2, ?_, ?_⟩
  · intro f hl h0
    obtain ⟨hfmem, hpred⟩ := lastMatch_mem hl
    have himg : f.img_type = (fluorSuffixes p).1 := by
      unfold isBf at hpred
      simpa using hpred
    constructor
    · refine callSeed_mem_of_mem_calls ?_
      rw [fluor_batch_calls]
      refine List.mem_flatMap.mpr ⟨s, hs, List.mem_filterMap.mpr ⟨f, ?_, ?_⟩⟩
      · rw [hfe]
        exact hfmem
      · exact fileCall_bf himg
    · refine hwarn1 ?_
      rw [fluorSampleRun_result, fluorFiles_total_seeds, hl]
      show pyFalsy (some ((proc (bfArgs p s f)).num_seeds)) = true
      rw [h0]
      rfl
  · intro f hl h0
    obtain ⟨hfmem, hpred⟩ := lastMatch_mem hl
    have hpred2 := hpred
    rw [isFl] at hpred2
    simp only [Bool.and_eq_true, bne_iff_ne, beq_iff_eq] at hpred2
    have himg1 : ¬ f.img_type = (fluorSuffixes p).1 := hpred2.1
    have himg2 : f.img_type = (fluorSuffixes p).2 := hpred2.2
    constructor
    · refine callSeed_mem_of_mem_calls ?_
      rw [fluor_batch_calls]
      refine List.mem_flatMap.mpr ⟨s, hs, List.mem_filterMap.mpr ⟨f, ?_, ?_⟩⟩
      · rw [hfe]
        exact hfmem
      · exact fileCall_fl himg1 himg2
    · refine hwarn2 ?_
      rw [fluorSampleRun_result, fluorFiles_marker_seeds, hl]
      show pyFalsy (some ((proc (flArgs p s f)).num_seeds)) = true
      rw [h0]
      rfl

/-- C3: a per-image outcome of zero seeds does not abort a batch: the batch
still yields a diagnostic for that sample (the missing-image wording in
fluorescence mode, the no-seeds wording in colorimetric mode), still appends
a Result for the sample with total_seeds = 0, raises nothing, and the final
results list covering every sample is still yielded. -/
theorem C3_zero_seeds_is_diagnostic_not_error (proc : SeedArgs → ProcessOutcome)
    (procColor : ColorArgs → ProcessOutcome × ProcessOutcome)
    (resultStr : Result → String) (m : List (String × List FileObj))
    (p : FluorParams) (mc : List (String × List SingleFileObj))
    (p2 : ColorParams) {s : String} {files : List FileObj}
    (hm : (s, files) ∈ m) (hnd : (m.map Prod.fst).Nodup) {f : FileObj}
    (hl : lastMatch (isBf (fluorSuffixes p).1) files = some f)
    (h0 : (proc (bfArgs p s f)).num_seeds = 0)
    (hall : ∀ x ∈ sortedKeys mc, filesOf mc x ≠ []) {s2 : String}
    {f2 : SingleFileObj} {fs2 : List SingleFileObj} (hs2 : s2 ∈ sortedKeys mc)
    (hf2 : filesOf mc s2 = f2 :: fs2)
    (h02 : (procColor (colorArgs p2 s2 f2.file_path)).1.num_seeds = 0) :
    (BatchEv.out (bfMissingMsg (fluorSuffixes p).1 s) ∈
        process_fluorescent_batch proc m p ∧
      BatchEv.outResults (fluorResults proc m p) ∈
        process_fluorescent_batch proc m p ∧
      (fluorResults proc m p).length = m.length ∧
      ∃ r ∈ fluorResults proc m p, r.sample_name = s ∧
        r.total_seeds = some 0) ∧
    ((process_colorimetric_batch procColor resultStr mc p2).2 = false ∧
      BatchEv.out (noSeedsMsg s2) ∈
        (process_colorimetric_batch procColor resultStr mc p2).1 ∧
      BatchEv.outResults (colorResults procColor resultStr mc p2) ∈
        (process_colorimetric_batch procColor resultStr mc p2).1 ∧
      (colorResults procColor resultStr mc p2).length = mc.length ∧
      ∃ r ∈ colorResults procColor resultStr mc p2, r.sample_name = s2 ∧
        r.total_seeds = some 0) := by
  have hs : s ∈ sortedKeys m := mem_sortedKeys_of_mem hm
  have hfe : filesOf m s = files := filesOf_eq hnd hm
  have htot : (fluorSampleRun proc p (fluorSuffixes p).1 (fluorSuffixes p).2 s
      files).2.total_seeds = some 0 := by
    rw [fluorSampleRun_result, fluorFiles_total_seeds, hl]
    show some ((proc (bfArgs p s f)).num_seeds) = some 0
    rw [h0]
  constructor
  · refine ⟨?_, ?_, fluorResults_length proc m p, ?_⟩
    · refine mem_batch_of_mem_blocks proc m p
        (mem_fluorBlocks_of_mem_sample proc m p hs ?_)
      rw [hfe]
      refine fluorSampleRun_bf_warning proc p _ _ s files ?_
      rw [htot]
      rfl
    · rw [process_fluorescent_batch_eq]
      exact List.mem_append_right _ (List.mem_singleton.mpr rfl)
    · refine ⟨(fluorSampleRun proc p (fluorSuffixes p).1 (fluorSuffixes p).2 s
        (filesOf m s)).2, ?_, ?_, ?_⟩
      · exact List.mem_map.mpr ⟨s, hs, rfl⟩
      · exact fluorSampleRun_name proc p _ _ s _
      · rw [hfe]
        exact htot
  · have hbatch := process_colorimetric_batch_eq procColor resultStr mc p2 hall
    have htot2 : (colorSampleRun procColor resultStr p2 s2 f2).2.total_seeds =
        some 0 := by
      rw [colorSampleRun_result]
      show some ((procColor (colorArgs p2 s2 f2.file_path)).1.num_seeds) = some 0
      rw [h02]
    refine ⟨by rw [hbatch], ?_, ?_,
      colorResults_length procColor resultStr mc p2, ?_⟩
    · refine mem_color_batch_of_mem_loop procColor resultStr mc p2 ?_
      refine colorLoop_mem procColor resultStr p2 mc mc.length (sortedKeys mc)
        hall hs2 hf2 ?_ 0
      refine colorSampleRun_noSeeds procColor resultStr p2 s2 f2 ?_
      rw [htot2]
      rfl
    · rw [hbatch]
      exact List.mem_append_right _ (List.mem_singleton.mpr rfl)
    · refine ⟨colorResultOf procColor resultStr p2 mc s2, ?_, ?_, ?_⟩
      · exact List.mem_map.mpr ⟨s2, hs2, rfl⟩
      · unfold colorResultOf
        rw [hf2]
        rfl
      · unfold colorResultOf
        rw [hf2]
        exact htot2

/-- C4: a file descriptor whose img_type is neither suffix produces the
per-file warning naming the file, leaves the sample's Result exactly as if
the descriptor were absent, and the batch neither raises nor stops: the full
results list, one per sample, is still yielded. -/
theorem C4_unknown_image_type_warned_and_skipped
    (proc : SeedArgs → ProcessOutcome) (m : List (String × List FileObj))
    (p : FluorParams) {s : String} {files : List FileObj}
    (hm : (s, files) ∈ m) (hnd : (m.map Prod.fst).Nodup) {f : FileObj}
    (hf : f ∈ files) (h1 : ¬ f.img_type = (fluorSuffixes p).1)
    (h2 : ¬ f.img_type = (fluorSuffixes p).2) :
    BatchEv.out ("\tUnknown image type for " ++ f.file_name) ∈
      process_fluorescent_batch proc m p ∧
    (∀ l1 l2, files = l1 ++ f :: l2 →
      (fluorSampleRun proc p (fluorSuffixes p).1 (fluorSuffixes p).2 s
        files).2 =
      (fluorSampleRun proc p (fluorSuffixes p).1 (fluorSuffixes p).2 s
        (l1 ++ l2)).2) ∧
    BatchEv.outResults (fluorResults proc m p) ∈
      process_fluorescent_batch proc m p ∧
    (fluorResults proc m p).length = m.length := by
  have hs : s ∈ sortedKeys m := mem_sortedKeys_of_mem hm
  have hfe : filesOf m s = files := filesOf_eq hnd hm
  refine ⟨?_, ?_, ?_, fluorResults_length proc m p⟩
  · refine mem_batch_of_mem_blocks proc m p
      (mem_fluorBlocks_of_mem_sample proc m p hs ?_)
    refine fluorSampleRun_mem_body proc p _ _ s _ ?_
    refine fluorFiles_unknown_msg proc p _ _ s h1 h2 _ _ ?_
    rw [hfe]
    exact hf
  · intro l1 l2 hsplit
    subst hsplit
    apply result_eq_of_fields
    · rw [fluorSampleRun_name, fluorSampleRun_name]
    · rw [fluorSampleRun_result, fluorSampleRun_result, fluorFiles_total_seeds,
        fluorFiles_total_seeds, lastMatch_middle (isBf_not h1)]
    · rw [fluorSampleRun_result, fluorSampleRun_result, fluorFiles_marker_seeds,
        fluorFiles_marker_seeds, lastMatch_middle (isFl_of_unknown h2)]
    · rw [fluorSampleRun_result, fluorSampleRun_result, fluorFiles_bf_thresh,
        fluorFiles_bf_thresh, lastMatch_middle (isBf_not h1)]
    · rw [fluorSampleRun_result, fluorSampleRun_result, fluorFiles_marker_thresh,
        fluorFiles_marker_thresh, lastMatch_middle (isFl_of_unknown h2)]
    · rw [fluorSampleRun_result, fluorSampleRun_result, fluorFiles_radial,
        fluorFiles_radial, lastMatch_middle (isKnown_of_unknown h1 h2)]
    · rw [fluorSampleRun_result, fluorSampleRun_result, fluorFiles_ratio,
        fluorFiles_ratio]
  · rw [process_fluorescent_batch_eq]
    exact List.mem_append_right _ (List.mem_singleton.mpr rfl)

/-- C1 as stated is false: a descriptor whose img_type matches neither
suffix triggers no process_seed_image call, so the batch does not call the
per-image orchestrator once per file descriptor. Here the sample a has one
descriptor (of type XX) and zero calls are made. -/
theorem C1_counterexample :
    (seedCallsOf (process_fluorescent_batch (fun _ => ⟨1, 0, none⟩)
        [("a", [⟨"d/a_XX.tif", "a_XX.tif", "XX"⟩])]
        { bf_thresh := none, fl_thresh := none, radial_thresh := none,
          batch_output_dir := none })).length ≠
      (filesOf [("a", [(⟨"d/a_XX.tif", "a_XX.tif", "XX"⟩ : FileObj)])]
        "a").length := by
  decide

/-- C1 (amended): process_fluorescent_batch calls process_seed_image exactly
once per file descriptor whose img_type equals the brightfield or the
fluorescent suffix (the calls attributed to a sample are exactly those
descriptors' calls, in order), and aggregates outcomes into one Result per
sample: total_seeds and bf_thresh come from the outcome of the last
brightfield-suffixed descriptor, marker_seeds and marker_thresh from the
outcome of the last fluorescent-suffixed descriptor. -/
theorem C1_amended_one_call_per_recognized_descriptor
    (proc : SeedArgs → ProcessOutcome) (m : List (String × List FileObj))
    (p : FluorParams) {s : String} {files : List FileObj}
    (hm : (s, files) ∈ m) (hnd : (m.map Prod.fst).Nodup) :
    ((seedCallsOf (process_fluorescent_batch proc m p)).filter
        (fun a => a.sample_name == s) =
      files.filterMap (fileCall p (fluorSuffixes p).1 (fluorSuffixes p).2 s)) ∧
    ((files.filterMap
        (fileCall p (fluorSuffixes p).1 (fluorSuffixes p).2 s)).length =
      (files.filter (isKnown (fluorSuffixes p).1 (fluorSuffixes p).2)).length) ∧
    (∃ r ∈ fluorResults proc m p, r.sample_name = s ∧
      r.total_seeds = (lastMatch (isBf (fluorSuffixes p).1) files).map
        (fun f => (proc (bfArgs p s f)).num_seeds) ∧
      r.bf_thresh = (lastMatch (isBf (fluorSuffixes p).1) files).map
        (fun f => (proc (bfArgs p s f)).brightness_threshold) ∧
      r.marker_seeds =
        (lastMatch (isFl (fluorSuffixes p).1 (fluorSuffixes p).2) files).map
          (fun f => (proc (flArgs p s f)).num_seeds) ∧
      r.marker_thresh =
        (lastMatch (isFl (fluorSuffixes p).1 (fluorSuffixes p).2) files).map
          (fun f => (proc (flArgs p s f)).brightness_threshold)) := by
  have hs : s ∈ sortedKeys m := mem_sortedKeys_of_mem hm
  have hfe : filesOf m s = files := filesOf_eq hnd hm
  refine ⟨?_, filterMap_fileCall_length p _ _ s files, ?_⟩
  · rw [fluor_batch_calls]
    rw [flatMap_filter_name _ (sortedKeys_nodup hnd) hs ?_]
    · rw [hfe]
    · intro x a ha
      obtain ⟨g, _, hc⟩ := List.mem_filterMap.mp ha
      exact fileCall_sample_name hc
  · refine ⟨(fluorSampleRun proc p (fluorSuffixes p).1 (fluorSuffixes p).2 s
      (filesOf m s)).2, List.mem_map.mpr ⟨s, hs, rfl⟩,
      fluorSampleRun_name proc p _ _ s _, ?_, ?_, ?_, ?_⟩
    · rw [hfe, fluorSampleRun_result, fluorFiles_total_seeds]
      cases lastMatch (isBf (fluorSuffixes p).1) files <;> rfl
    · rw [hfe, fluorSampleRun_result, fluorFiles_bf_thresh]
      cases lastMatch (isBf (fluorSuffixes p).1) files <;> rfl
    · rw [hfe, fluorSampleRun_result, fluorFiles_marker_seeds]
      cases lastMatch (isFl (fluorSuffixes p).1 (fluorSuffixes p).2) files <;> rfl
    · rw [hfe, fluorSampleRun_result, fluorFiles_marker_thresh]
      cases lastMatch (isFl (fluorSuffixes p).1 (fluorSuffixes p).2) files <;> rfl

/-- C5 as stated is false for process_colorimetric_batch: on the mapping
that binds sample a to an empty descriptor list, the assert raises after the
header is yielded, so the run ends without ever yielding a results list. -/
theorem C5_counterexample :
    yieldsOf (process_colorimetric_batch
        (fun _ => (⟨1, 0, none⟩, ⟨1, 0, none⟩)) (fun _ => "r")
        [("a", ([] : List SingleFileObj))]
        { bf_thresh := none, radial_thresh := none,
          batch_output_dir := none }).1 =
      [Sum.inl "Processing sample a (1 of 1):"] ∧
    (process_colorimetric_batch (fun _ => (⟨1, 0, none⟩, ⟨1, 0, none⟩))
        (fun _ => "r") [("a", ([] : List SingleFileObj))]
        { bf_thresh := none, radial_thresh := none,
          batch_output_dir := none }).2 = true := by
  constructor
  · rfl
  · rfl

/-- C5 (amended): every item yielded before the last is a status string and
the last yielded item is the single results list with exactly one Result
per sample; unconditionally for process_fluorescent_batch, and for
process_colorimetric_batch provided every sample has at least one
descriptor (otherwise its assert aborts the run before the results list is
yielded). -/
theorem C5_amended_status_strings_then_single_results_list
    (proc : SeedArgs → ProcessOutcome)
    (procColor : ColorArgs → ProcessOutcome × ProcessOutcome)
    (resultStr : Result → String) (m : List (String × List FileObj))
    (p : FluorParams) (mc : List (String × List SingleFileObj))
    (p2 : ColorParams) (hall : ∀ x ∈ sortedKeys mc, filesOf mc x ≠ []) :
    (yieldsOf (process_fluorescent_batch proc m p) =
        (msgsOf (fluorBlocks proc m p)).map Sum.inl ++
          [Sum.inr (fluorResults proc m p)] ∧
      (fluorResults proc m p).length = m.length ∧
      (fluorResults proc m p).map (fun r => r.sample_name) = sortedKeys m ∧
      (sortedKeys m).Perm (m.map Prod.fst)) ∧
    (yieldsOf (process_colorimetric_batch procColor resultStr mc p2).1 =
        (msgsOf (colorLoop procColor resultStr p2 mc mc.length 0
          (sortedKeys mc)).1).map Sum.inl ++
          [Sum.inr (colorResults procColor resultStr mc p2)] ∧
      (colorResults procColor resultStr mc p2).length = mc.length ∧
      (colorResults procColor resultStr mc p2).map (fun r => r.sample_name) =
        sortedKeys mc ∧
      (sortedKeys mc).Perm (mc.map Prod.fst)) := by
  constructor
  · refine ⟨?_, fluorResults_length proc m p, fluorResults_names proc m p,
      sortedKeys_perm m⟩
    rw [process_fluorescent_batch_eq, yieldsOf_append,
      yieldsOf_eq_map_inl (fun rs => fluorBlocks_no_outResults proc m p rs)]
    rfl
  · refine ⟨?_, colorResults_length procColor resultStr mc p2,
      colorResults_names procColor resultStr mc p2, sortedKeys_perm mc⟩
    rw [process_colorimetric_batch_eq procColor resultStr mc p2 hall]
    rw [yieldsOf_append,
      yieldsOf_eq_map_inl (fun rs => colorLoop_no_outResults procColor
        resultStr p2 mc mc.length (sortedKeys mc) rs 0)]
    rfl

/-! ## Witnesses -/

/-- Witness for C1 (amended) at the concrete one-sample mapping. -/
theorem C1_amended_witness :
    (("s1", [fileBF, fileFL, fileXX]) ∈ mapW ∧
      (mapW.map Prod.fst).Nodup) ∧
    (((seedCallsOf (process_fluorescent_batch procW mapW paramsW)).filter
        (fun a => a.sample_name == "s1") =
      [fileBF, fileFL, fileXX].filterMap
        (fileCall paramsW (fluorSuffixes paramsW).1 (fluorSuffixes paramsW).2
          "s1")) ∧
    (([fileBF, fileFL, fileXX].filterMap
        (fileCall paramsW (fluorSuffixes paramsW).1 (fluorSuffixes paramsW).2
          "s1")).length =
      ([fileBF, fileFL, fileXX].filter
        (isKnown (fluorSuffixes paramsW).1 (fluorSuffixes paramsW).2)).length) ∧
    (∃ r ∈ fluorResults procW mapW paramsW, r.sample_name = "s1" ∧
      r.total_seeds = (lastMatch (isBf (fluorSuffixes paramsW).1)
          [fileBF, fileFL, fileXX]).map
        (fun f => (procW (bfArgs paramsW "s1" f)).num_seeds) ∧
      r.bf_thresh = (lastMatch (isBf (fluorSuffixes paramsW).1)
          [fileBF, fileFL, fileXX]).map
        (fun f => (procW (bfArgs paramsW "s1" f)).brightness_threshold) ∧
      r.marker_seeds =
        (lastMatch (isFl (fluorSuffixes paramsW).1 (fluorSuffixes paramsW).2)
            [fileBF, fileFL, fileXX]).map
          (fun f => (procW (flArgs paramsW "s1" f)).num_seeds) ∧
      r.marker_thresh =
        (lastMatch (isFl (fluorSuffixes paramsW).1 (fluorSuffixes paramsW).2)
            [fileBF, fileFL, fileXX]).map
          (fun f => (procW (flArgs paramsW "s1" f)).brightness_threshold))) :=
  ⟨⟨by decide, by decide⟩,
    @C1_amended_one_call_per_recognized_descriptor procW mapW paramsW "s1"
      [fileBF, fileFL, fileXX] (by decide) (by decide)⟩

/-- Witness for C2 at the concrete mappings, with radial_thresh = 3. -/
theorem C2_witness :
    (paramsW.radial_thresh = some 3 ∧ paramsColorW.radial_thresh = some 3) ∧
    ((∀ a ∈ seedCallsOf (process_fluorescent_batch procW mapW paramsW),
        a.radial_threshold = some 3) ∧
    (∀ a ∈ colorCallsOf (process_colorimetric_batch procColorW resultStrW
        mapColorW paramsColorW).1,
      a.radial_threshold = some 3) ∧
    (∀ r ∈ fluorResults procW mapW paramsW, r.radial_threshold = none ∨
      ∃ a ∈ seedCallsOf (process_fluorescent_batch procW mapW paramsW),
        a.sample_name = r.sample_name ∧
        r.radial_threshold = (procW a).radial_threshold) ∧
    (∀ rs, BatchEv.outResults rs ∈
        (process_colorimetric_batch procColorW resultStrW mapColorW
          paramsColorW).1 →
      ∀ r ∈ rs, ∃ a ∈ colorCallsOf (process_colorimetric_batch procColorW
          resultStrW mapColorW paramsColorW).1,
        a.sample_name = r.sample_name ∧
        r.radial_threshold = (procColorW a).1.radial_threshold)) :=
  ⟨⟨rfl, rfl⟩,
    C2_radial_thresh_passed_verbatim procW procColorW resultStrW mapW paramsW
      mapColorW paramsColorW 3 rfl rfl⟩

/-- Witness for C3: the brightfield outcome of sample s1 and the
colorimetric outcome of sample c1 both have zero seeds; the diagnostics are
yielded, the results lists are complete, nothing raises. -/
theorem C3_witness :
    (lastMatch (isBf (fluorSuffixes paramsW).1) [fileBF, fileFL, fileXX] =
        some fileBF ∧
      (procW (bfArgs paramsW "s1" fileBF)).num_seeds = 0 ∧
      (procColorW (colorArgs paramsColorW "c1" fileC.file_path)).1.num_seeds =
        0) ∧
    ((BatchEv.out (bfMissingMsg (fluorSuffixes paramsW).1 "s1") ∈
        process_fluorescent_batch procW mapW paramsW ∧
      BatchEv.outResults (fluorResults procW mapW paramsW) ∈
        process_fluorescent_batch procW mapW paramsW ∧
      (fluorResults procW mapW paramsW).length = mapW.length ∧
      ∃ r ∈ fluorResults procW mapW paramsW, r.sample_name = "s1" ∧
        r.total_seeds = some 0) ∧
    ((process_colorimetric_batch procColorW resultStrW mapColorW
        paramsColorW).2 = false ∧
      BatchEv.out (noSeedsMsg "c1") ∈
        (process_colorimetric_batch procColorW resultStrW mapColorW
          paramsColorW).1 ∧
      BatchEv.outResults (colorResults procColorW resultStrW mapColorW
          paramsColorW) ∈
        (process_colorimetric_batch procColorW resultStrW mapColorW
          paramsColorW).1 ∧
      (colorResults procColorW resultStrW mapColorW paramsColorW).length =
        mapColorW.length ∧
      ∃ r ∈ colorResults procColorW resultStrW mapColorW paramsColorW,
        r.sample_name = "c1" ∧ r.total_seeds = some 0)) :=
  ⟨⟨by decide, by decide, by decide⟩,
    @C3_zero_seeds_is_diagnostic_not_error procW procColorW resultStrW mapW
      paramsW mapColorW paramsColorW "s1" [fileBF, fileFL, fileXX] (by decide)
      (by decide) fileBF (by decide) (by decide) (by decide) "c1" fileC []
      (by decide) (by decide) (by decide)⟩

/-- Witness for C4: the XX-typed descriptor of sample s1 is warned about and
changes nothing in the sample's Result. -/
theorem C4_witness :
    (fileXX ∈ [fileBF, fileFL, fileXX] ∧
      ¬ fileXX.img_type = (fluorSuffixes paramsW).1 ∧
      ¬ fileXX.img_type = (fluorSuffixes paramsW).2) ∧
    (BatchEv.out ("\tUnknown image type for " ++ fileXX.file_name) ∈
        process_fluorescent_batch procW mapW paramsW ∧
    (∀ l1 l2, [fileBF, fileFL, fileXX] = l1 ++ fileXX :: l2 →
      (fluorSampleRun procW paramsW (fluorSuffixes paramsW).1
        (fluorSuffixes paramsW).2 "s1" [fileBF, fileFL, fileXX]).2 =
      (fluorSampleRun procW paramsW (fluorSuffixes paramsW).1
        (fluorSuffixes paramsW).2 "s1" (l1 ++ l2)).2) ∧
    BatchEv.outResults (fluorResults procW mapW paramsW) ∈
      process_fluorescent_batch procW mapW paramsW ∧
    (fluorResults procW mapW paramsW).length = mapW.length) :=
  ⟨⟨by decide, by decide, by decide⟩,
    @C4_unknown_image_type_warned_and_skipped procW mapW paramsW "s1"
      [fileBF, fileFL, fileXX] (by decide) (by decide) fileXX (by decide)
      (by decide) (by decide)⟩

/-- Witness for C5 (amended) at the concrete mappings. -/
theorem C5_amended_witness :
    (∀ x ∈ sortedKeys mapColorW, filesOf mapColorW x ≠ []) ∧
    ((yieldsOf (process_fluorescent_batch procW mapW paramsW) =
        (msgsOf (fluorBlocks procW mapW paramsW)).map Sum.inl ++
          [Sum.inr (fluorResults procW mapW paramsW)] ∧
      (fluorResults procW mapW paramsW).length = mapW.length ∧
      (fluorResults procW mapW paramsW).map (fun r => r.sample_name) =
        sortedKeys mapW ∧
      (sortedKeys mapW).Perm (mapW.map Prod.fst)) ∧
    (yieldsOf (process_colorimetric_batch procColorW resultStrW mapColorW
        paramsColorW).1 =
        (msgsOf (colorLoop procColorW resultStrW paramsColorW mapColorW
          mapColorW.length 0 (sortedKeys mapColorW)).1).map Sum.inl ++
          [Sum.inr (colorResults procColorW resultStrW mapColorW
            paramsColorW)] ∧
      (colorResults procColorW resultStrW mapColorW paramsColorW).length =
        mapColorW.length ∧
      (colorResults procColorW resultStrW mapColorW paramsColorW).map
        (fun r => r.sample_name) = sortedKeys mapColorW ∧
      (sortedKeys mapColorW).Perm (mapColorW.map Prod.fst))) :=
  ⟨by decide,
    C5_amended_status_strings_then_single_results_list procW procColorW
      resultStrW mapW paramsW mapColorW paramsColorW (by decide)⟩

/-- Witness for C6 on a one-file listing. -/
theorem C6_witness :
    ("a.tif" ∈ ["a.tif"] ∧
      VALID_EXTENSIONS.contains (extLower (splitext "a.tif").2) = true) ∧
    ((∃ g, g ∈ (collect_single_img_files "d" ["a.tif"]).2 ∧
      (splitext g).1 = (splitext "a.tif").1 ∧
      List.lookup (splitext "a.tif").1
          (collect_single_img_files "d" ["a.tif"]).1 =
        some [SingleFileObj.mk ("d" ++ "/" ++ g) g]) ∧
    (∀ kv ∈ (collect_single_img_files "d" ["a.tif"]).1,
      ∃ g, g ∈ (collect_single_img_files "d" ["a.tif"]).2 ∧
        kv.1 = (splitext g).1 ∧
        kv.2 = [SingleFileObj.mk ("d" ++ "/" ++ g) g])) :=
  ⟨⟨by decide, by decide⟩,
    C6_collect_single_stem_is_sample_id "d" ["a.tif"] "a.tif" (by decide)
      (by decide)⟩

/-- Witness for C8: sample s1 has a brightfield image processed with zero
seeds; the missing-brightfield message is nevertheless yielded. -/
theorem C8_witness :
    (("s1", [fileBF, fileFL, fileXX]) ∈ mapW ∧
      (mapW.map Prod.fst).Nodup) ∧
    ((pyFalsy (fluorSampleRun procW paramsW (fluorSuffixes paramsW).1
        (fluorSuffixes paramsW).2 "s1" [fileBF, fileFL, fileXX]).2.total_seeds =
        true →
      BatchEv.out (bfMissingMsg (fluorSuffixes paramsW).1 "s1") ∈
        process_fluorescent_batch procW mapW paramsW) ∧
    (pyFalsy (fluorSampleRun procW paramsW (fluorSuffixes paramsW).1
        (fluorSuffixes paramsW).2 "s1"
        [fileBF, fileFL, fileXX]).2.marker_seeds = true →
      BatchEv.out (flMissingMsg (fluorSuffixes paramsW).2 "s1") ∈
        process_fluorescent_batch procW mapW paramsW) ∧
    (∀ f, lastMatch (isBf (fluorSuffixes paramsW).1)
        [fileBF, fileFL, fileXX] = some f →
      (procW (bfArgs paramsW "s1" f)).num_seeds = 0 →
      BatchEv.callSeed (bfArgs paramsW "s1" f) ∈
        process_fluorescent_batch procW mapW paramsW ∧
      BatchEv.out (bfMissingMsg (fluorSuffixes paramsW).1 "s1") ∈
        process_fluorescent_batch procW mapW paramsW) ∧
    (∀ f, lastMatch (isFl (fluorSuffixes paramsW).1 (fluorSuffixes paramsW).2)
        [fileBF, fileFL, fileXX] = some f →
      (procW (flArgs paramsW "s1" f)).num_seeds = 0 →
      BatchEv.callSeed (flArgs paramsW "s1" f) ∈
        process_fluorescent_batch procW mapW paramsW ∧
      BatchEv.out (flMissingMsg (fluorSuffixes paramsW).2 "s1") ∈
        process_fluorescent_batch procW mapW paramsW)) :=
  ⟨⟨by decide, by decide⟩,
    @C8_zero_seeds_conflated_with_missing_image procW mapW paramsW "s1"
      [fileBF, fileFL, fileXX] (by decide) (by decide)⟩

/-- Witness for C10, with the colorimetric no-empty-sample proviso
discharged at the concrete mapping. -/
theorem C10_witness :
    (((fluorResults procW mapW paramsW).map (fun r => r.sample_name) =
        sortedKeys mapW ∧
      BatchEv.outResults (fluorResults procW mapW paramsW) ∈
        process_fluorescent_batch procW mapW paramsW ∧
      List.Sorted (· ≤ ·) (sortedKeys mapW) ∧
      (sortedKeys mapW).Perm (mapW.map Prod.fst)) ∧
    ((colorResults procColorW resultStrW mapColorW paramsColorW).map
        (fun r => r.sample_name) = sortedKeys mapColorW ∧
      List.Sorted (· ≤ ·) (sortedKeys mapColorW) ∧
      (sortedKeys mapColorW).Perm (mapColorW.map Prod.fst) ∧
      ((∀ s ∈ sortedKeys mapColorW, filesOf mapColorW s ≠ []) →
        BatchEv.outResults (colorResults procColorW resultStrW mapColorW
            paramsColorW) ∈
          (process_colorimetric_batch procColorW resultStrW mapColorW
            paramsColorW).1))) ∧
    BatchEv.outResults (colorResults procColorW resultStrW mapColorW
        paramsColorW) ∈
      (process_colorimetric_batch procColorW resultStrW mapColorW
        paramsColorW).1 :=
  ⟨C10_samples_processed_in_sorted_order procW procColorW resultStrW mapW
      paramsW mapColorW paramsColorW,
    (C10_samples_processed_in_sorted_order procW procColorW resultStrW mapW
      paramsW mapColorW paramsColorW).2.2.2.2 (by decide)⟩

end SeedSeg
